import Mathlib

/-!
Verification of the orchestration script gensnaps.py.

The script is a sequential command-line utility: it checks prerequisites,
recreates a temporary clone directory, clones an external repository,
runs the external build and test tooling, and copies generated fixture
files into a stable output directory.  We embed it shallowly as a state
monad over an abstract filesystem (a set of directory paths and a set of
file paths) together with a trace of the primitive effects the script
performs (prints, which-checks, subprocess invocations, directory
removal and creation, file copies).  External subprocesses are supplied
by an environment `Env`: for each invocation the environment yields the
exit status, the new filesystem, and the text the child wrote to the
inherited output streams.
-/

namespace Gensnaps

/-- A filesystem path, as a list of components from the model root. -/
abbrev Path := List String

/-- Rendering of a path, mirroring str() on a Python Path object. -/
def pathStr : Path → String
  | [] => ""
  | [c] => c
  | c :: rest => c ++ "/" ++ pathStr rest

/-- Abstract filesystem: the set of directories and the set of files,
each given by its path. -/
structure FS where
  dirs : List Path
  files : List Path
deriving DecidableEq, Repr

/-- Path existence, mirroring Path.exists(): the path is a directory or a file. -/
def FS.pathExists (fs : FS) (p : Path) : Bool :=
  fs.dirs.contains p || fs.files.contains p

/-- Effect of shutil.rmtree: every entry at or below the path is removed. -/
def FS.rmtree (fs : FS) (p : Path) : FS :=
  ⟨fs.dirs.filter (fun d => !(p.isPrefixOf d)),
   fs.files.filter (fun f => !(p.isPrefixOf f))⟩

/-- Well-formed filesystem: every proper nonempty ancestor of an entry is a
directory.  True of any tree produced by a real filesystem. -/
def FS.wf (fs : FS) : Prop :=
  ∀ p ∈ fs.dirs ++ fs.files, ∀ i : Nat, i < p.length → 0 < i → p.take i ∈ fs.dirs

instance (fs : FS) : Decidable fs.wf := by
  unfold FS.wf
  infer_instance

/-- One primitive effect performed by the script, recorded in the trace. -/
inductive Action where
  | print (msg : String)
  | whichCheck (cmd : String)
  | existsCheck (p : Path)
  | rmtree (p : Path)
  | mkdir (p : Path)
  | mkdirParents (p : Path)
  | globSearch (dir : Path) (pat : String)
  | runCmd (cmd : List String) (cwd : Option Path) (shell : Bool)
  | copy2 (src : Path) (dst : Path)
deriving DecidableEq, Repr

/-- Script state: current filesystem plus the trace of effects so far. -/
structure St where
  fs : FS
  trace : List Action
deriving DecidableEq, Repr

/-- Outcome of running a fragment of the script: normal value, process
termination via sys.exit, or an uncaught exception. -/
inductive Res (α : Type) where
  | ok : α → St → Res α
  | exit : Nat → St → Res α
  | crash : String → St → Res α
deriving DecidableEq, Repr

/-- State carried by any outcome. -/
def Res.state : Res α → St
  | .ok _ s => s
  | .exit _ s => s
  | .crash _ s => s

/-- Process exit code of an outcome: 0 for normal completion, the given
code for sys.exit, nonzero for an uncaught exception. -/
def Res.exitCode : Res α → Nat
  | .ok _ _ => 0
  | .exit c _ => c
  | .crash _ _ => 1

/-- The script monad: a state transformer producing a `Res`. -/
def M (α : Type) : Type := St → Res α

/-- Sequencing: sys.exit and uncaught exceptions abort the continuation,
exactly as the exceptions they raise do in Python. -/
def M.bind (m : M α) (k : α → M β) : M β := fun s =>
  match m s with
  | .ok a s₁ => k a s₁
  | .exit c s₁ => .exit c s₁
  | .crash e s₁ => .crash e s₁

instance : Monad M where
  pure a := fun s => .ok a s
  bind := M.bind

/-- Read the current filesystem. -/
def getFS : M FS := fun s => .ok s.fs s

/-- Apply a pure transformation to the filesystem. -/
def modifyFS (f : FS → FS) : M Unit := fun s => .ok () ⟨f s.fs, s.trace⟩

/-- Record one effect in the trace. -/
def emitA (a : Action) : M Unit := fun s => .ok () ⟨s.fs, s.trace ++ [a]⟩

/-- Model of print(): record the printed line. -/
def prints (msg : String) : M Unit := emitA (.print msg)

/-- Model of sys.exit(1). -/
def exit1 : M Unit := fun s => .exit 1 s

/-- Result of one external command: its exit status, the filesystem it
leaves behind, and the text it wrote to the inherited output streams. -/
structure ExecResult where
  code : Nat
  fs : FS
  out : String

/-- Environment supplying everything outside the script: shutil.which
results, os.name, and the behaviour of every external subprocess. -/
structure Env where
  which : String → Bool
  osName : String
  run : List String → Option Path → Bool → FS → ExecResult

/-- Invoke the external command and fold its filesystem effect into the
state, returning its exit status. -/
def runExternal (env : Env) (cmd : List String) (cwd : Option Path) (sh : Bool) : M Nat :=
  fun s =>
    let r := env.run cmd cwd sh s.fs
    .ok r.code ⟨r.fs, s.trace⟩

/-- Diagnostic printed when a command is not on the path
(gensnaps.py line 30). -/
def missingMsg (c : String) : String :=
  "Error: \x27" ++ c ++ "\x27 is not installed or not in PATH."

/-- Embedding of check_command_installed (gensnaps.py lines 27 to 31). -/
def check_command_installed (env : Env) (command : String) : M Unit := do
  emitA (.whichCheck command)
  if env.which command then
    pure ()
  else do
    prints (missingMsg command)
    exit1

/-- Python repr of a list of strings, as it appears inside the message of
a CalledProcessError. -/
def pyListRepr (cmd : List String) : String :=
  "[" ++ String.intercalate ", " (cmd.map (fun a => "\x27" ++ a ++ "\x27")) ++ "]"

/-- Message of the CalledProcessError raised by subprocess.check_call. -/
def calledProcessErrorMsg (cmd : List String) (code : Nat) : String :=
  "Command \x27" ++ pyListRepr cmd ++ "\x27 returned non-zero exit status " ++
    toString code ++ "."

/-- Embedding of run_command (gensnaps.py lines 34 to 47).  Output is not
captured: it streams to the inherited stdout and stderr, so on failure
the e.stdout attribute of the exception is None and the script prints the
literal text None in the output section. -/
def run_command (env : Env) (command : List String) (cwd : Option Path)
    (shell : Bool) : M Unit := do
  let cmd_str := String.intercalate " " command
  prints ("Running: " ++ cmd_str)
  emitA (.runCmd command cwd shell)
  let code ← runExternal env command cwd shell
  if code = 0 then
    pure ()
  else do
    prints ("Error running command: " ++ calledProcessErrorMsg command code)
    prints "--- OUTPUT ---"
    prints "None"
    prints "--- END OUTPUT ---"
    exit1

/-- Model of Path.mkdir() with default arguments: raises FileExistsError
when the target already exists. -/
def mkdirStrict (p : Path) : M Unit := fun s =>
  if s.fs.pathExists p then
    .crash ("FileExistsError: " ++ pathStr p) s
  else
    .ok () ⟨⟨p :: s.fs.dirs, s.fs.files⟩, s.trace ++ [.mkdir p]⟩

/-- Model of Path.mkdir(exist_ok=True): no effect when the target exists. -/
def mkdirOk (p : Path) : M Unit := fun s =>
  if s.fs.pathExists p then
    .ok () ⟨s.fs, s.trace ++ [.mkdir p]⟩
  else
    .ok () ⟨⟨p :: s.fs.dirs, s.fs.files⟩, s.trace ++ [.mkdir p]⟩

/-- All nonempty ancestors of a path, the path itself included. -/
def ancestors (p : Path) : List Path :=
  (List.range p.length).map (fun i => p.take (i + 1))

/-- Model of Path.mkdir(parents=True, exist_ok=True). -/
def mkdirParentsOk (p : Path) : M Unit := fun s =>
  .ok () ⟨⟨ancestors p ++ s.fs.dirs, s.fs.files⟩, s.trace ++ [.mkdirParents p]⟩

/-- Model of shutil.rmtree as a monadic step. -/
def rmtreeM (p : Path) : M Unit := do
  emitA (.rmtree p)
  modifyFS (fun fs => fs.rmtree p)

/-- Model of shutil.copy2(file_path, output_dir) with a directory target:
a file appears in the directory under its base name; on a source that is
itself a directory, copy2 raises IsADirectoryError, which the script does
not catch. -/
def copy2M (f : Path) (dstDir : Path) : M Unit := fun s =>
  if s.fs.dirs.contains f then
    .crash ("IsADirectoryError: " ++ pathStr f) s
  else
    .ok () ⟨⟨s.fs.dirs, (dstDir ++ [f.getLast?.getD ""]) :: s.fs.files⟩,
      s.trace ++ [.copy2 f (dstDir ++ [f.getLast?.getD ""])]⟩

/-- Temporary directory setup shared verbatim by both pipelines
(gensnaps.py lines 66 to 70 and 128 to 132): remove the temporary clone
directory when it exists, then create it fresh. -/
def setupTempDir (temp_dir : Path) : M Unit := do
  emitA (.existsCheck temp_dir)
  let fs ← getFS
  if fs.pathExists temp_dir then do
    prints ("Removing existing temporary directory: " ++ pathStr temp_dir)
    rmtreeM temp_dir
  mkdirStrict temp_dir

/-- Base name of a path. -/
def lastName (p : Path) : String := p.getLast?.getD ""

/-- Ends-with on strings, via their character lists. -/
def strEndsWith (s t : String) : Bool := t.data.isSuffixOf s.data

/-- Entry name accepted by the Java harvest pattern *.sk.  In pathlib,
Path.glob matches hidden names as well, so the only condition is the
suffix. -/
def skName (n : String) : Bool := strEndsWith n ".sk"

/-- Entry name accepted by the C++ harvest pattern *_cpp.sk. -/
def cppSkName (n : String) : Bool := strEndsWith n "_cpp.sk"

/-- All entries of the filesystem, files and directories alike: pathlib
glob and rglob yield matching entries of either kind. -/
def FS.entries (fs : FS) : List Path := fs.files ++ fs.dirs

/-- Entries matched by generated_files_dir.glob("*.sk") at gensnaps.py
line 104: direct children of the directory, files or directories, hidden
or not, whose name ends in the suffix. -/
def javaSkMatches (fs : FS) (dir : Path) : List Path :=
  fs.entries.filter (fun f => f.dropLast == dir && skName (lastName f))

/-- Entries matched by build_dir.rglob("*_cpp.sk") at gensnaps.py line
170: entries at any depth strictly below the directory, hidden components
included (pathlib rglob descends into hidden directories), whose base
name ends in the suffix. -/
def cppSkMatches (fs : FS) (dir : Path) : List Path :=
  fs.entries.filter (fun f =>
    dir.isPrefixOf f && decide (dir.length < f.length) &&
    cppSkName (lastName f))

/-- The copy loop shared by both harvest steps (gensnaps.py lines 104 to
107 and 170 to 174): copy each match into the flat output directory and
log it. -/
def copyLoop (output_dir : Path) : List Path → M Unit
  | [] => pure ()
  | f :: rest => do
    copy2M f output_dir
    prints ("Copied: " ++ lastName f)
    copyLoop output_dir rest

/-- Step 6 of the Java pipeline (gensnaps.py lines 93 to 112): check the
expected generated-files directory, create the output directory, copy
every *.sk file from it, and report. -/
def copyGeneratedJavaFiles (generated_files_dir output_dir : Path) : M Unit := do
  emitA (.existsCheck generated_files_dir)
  let fs ← getFS
  if fs.pathExists generated_files_dir = false then do
    prints ("Error: Expected generated files directory not found at " ++
      pathStr generated_files_dir)
    exit1
  prints ("Copying files from " ++ pathStr generated_files_dir ++ " to " ++
    pathStr output_dir)
  mkdirParentsOk output_dir
  emitA (.globSearch generated_files_dir "*.sk")
  let fs2 ← getFS
  let matched := javaSkMatches fs2 generated_files_dir
  copyLoop output_dir matched
  if matched.length = 0 then
    prints "Warning: No .sk files were found to copy."
  else
    prints ("Successfully copied " ++ toString matched.length ++ " files.")

/-- Step 6 of the C++ pipeline (gensnaps.py lines 160 to 179): create the
output directory, copy every *_cpp.sk file found recursively under the
build directory, and report. -/
def copyCppFiles (build_dir output_dir : Path) : M Unit := do
  prints ("Copying files to " ++ pathStr output_dir)
  mkdirParentsOk output_dir
  emitA (.globSearch build_dir "**/*_cpp.sk")
  let fs ← getFS
  let matched := cppSkMatches fs build_dir
  copyLoop output_dir matched
  if matched.length = 0 then
    prints "Warning: No *_cpp.sk files were found to copy."
  else
    prints ("Successfully copied " ++ toString matched.length ++ " files.")

/-- Temporary clone directory of the Java pipeline. -/
def javaTempDir (ws : Path) : Path := ws ++ ["tmp_datasketches_java"]

/-- Output directory of the Java pipeline. -/
def javaOutputDir (ws : Path) : Path :=
  ws ++ ["serialization_test_data", "java_generated_files"]

/-- Declared generated-files directory inside the Java clone. -/
def javaGeneratedDir (ws : Path) : Path :=
  javaTempDir ws ++ ["serialization_test_data", "java_generated_files"]

/-- Temporary clone directory of the C++ pipeline. -/
def cppTempDir (ws : Path) : Path := ws ++ ["tmp_datasketches_cpp"]

/-- Output directory of the C++ pipeline. -/
def cppOutputDir (ws : Path) : Path :=
  ws ++ ["serialization_test_data", "cpp_generated_files"]

/-- Build directory created inside the C++ clone. -/
def cppBuildDir (ws : Path) : Path := cppTempDir ws ++ ["build"]

/-- Maven executable name: the .cmd variant on Windows
(gensnaps.py lines 56 to 58). -/
def mvnCmdName (env : Env) : String :=
  if env.osName == "nt" then "mvn.cmd" else "mvn"

/-- The git clone command built at gensnaps.py lines 75 to 82 and 137 to 144. -/
def cloneCmd (repo_url branch : String) (temp_dir : Path) : List String :=
  ["git", "clone", "--depth", "1", "--branch", branch, "--single-branch",
   repo_url, pathStr temp_dir]

/-- Embedding of generate_java_files (gensnaps.py lines 50 to 112). -/
def generate_java_files (env : Env) (workspace_dir : Path) : M Unit := do
  prints "--- Generating Java Test Data ---"
  check_command_installed env "git"
  check_command_installed env "java"
  check_command_installed env (mvnCmdName env)
  setupTempDir (javaTempDir workspace_dir)
  run_command env
    (cloneCmd "https://github.com/apache/datasketches-java.git" "9.0.0"
      (javaTempDir workspace_dir)) none false
  run_command env [mvnCmdName env, "test", "-P", "generate-java-files"]
    (some (javaTempDir workspace_dir)) (env.osName == "nt")
  copyGeneratedJavaFiles (javaGeneratedDir workspace_dir)
    (javaOutputDir workspace_dir)

/-- Embedding of generate_cpp_files (gensnaps.py lines 115 to 179). -/
def generate_cpp_files (env : Env) (workspace_dir : Path) : M Unit := do
  prints "--- Generating C++ Test Data ---"
  check_command_installed env "git"
  check_command_installed env "cmake"
  check_command_installed env "ctest"
  setupTempDir (cppTempDir workspace_dir)
  run_command env
    (cloneCmd "https://github.com/apache/datasketches-cpp.git" "master"
      (cppTempDir workspace_dir)) none false
  mkdirOk (cppBuildDir workspace_dir)
  run_command env ["cmake", "..", "-DGENERATE=true", "-DCMAKE_BUILD_TYPE=Release"]
    (some (cppBuildDir workspace_dir)) false
  run_command env ["cmake", "--build", ".", "--config", "Release"]
    (some (cppBuildDir workspace_dir)) false
  run_command env ["ctest", "-C", "Release", "--output-on-failure"]
    (some (cppBuildDir workspace_dir)) false
  copyCppFiles (cppBuildDir workspace_dir) (cppOutputDir workspace_dir)

/-- Embedding of main (gensnaps.py lines 182 to 200): flag defaulting and
sequential dispatch, the Java pipeline strictly before the C++ one. -/
def mainRun (env : Env) (workspace_dir : Path) (java cpp allFlag : Bool) : M Unit := do
  let allFlag := if !java && !cpp && !allFlag then true else allFlag
  if java || allFlag then
    generate_java_files env workspace_dir
  if cpp || allFlag then
    generate_cpp_files env workspace_dir

/-- Substring containment on strings, used to state that a diagnostic
includes a given piece of text. -/
def containsStr (s t : String) : Bool := decide (t.data <:+: s.data)

/-- The empty filesystem, used by concrete witnesses. -/
def fsEmpty : FS := ⟨[], []⟩

/-- Concrete environment: every tool installed, every command succeeds
and leaves the filesystem unchanged. -/
def envAllOk : Env := ⟨fun _ => true, "posix", fun _ _ _ fs => ⟨0, fs, ""⟩⟩

/-- Concrete environment: no tool is installed. -/
def envNoTools : Env := ⟨fun _ => false, "posix", fun _ _ _ fs => ⟨0, fs, ""⟩⟩

/-- Concrete environment: every tool installed, every command fails with
status 1 after writing BUILD FAILURE to the inherited streams. -/
def envFailing : Env := ⟨fun _ => true, "posix", fun _ _ _ fs => ⟨1, fs, "BUILD FAILURE"⟩⟩

/-- Whether a recorded effect reads, writes, creates or removes something
at or below the given target path.  Printing and which-checks touch no
path; removing an ancestor of the target also touches it; a subprocess
invocation touches the target when its working directory lies at or below
it or one of its arguments names the target path. -/
def Action.touches (a : Action) (tgt : Path) : Bool :=
  match a with
  | .print _ => false
  | .whichCheck _ => false
  | .existsCheck p => tgt.isPrefixOf p
  | .rmtree p => tgt.isPrefixOf p || p.isPrefixOf tgt
  | .mkdir p => tgt.isPrefixOf p
  | .mkdirParents p => tgt.isPrefixOf p
  | .globSearch p _ => tgt.isPrefixOf p
  | .runCmd cmd cwd _ =>
      (match cwd with | some p => tgt.isPrefixOf p | none => false) ||
      cmd.any (fun arg => arg == pathStr tgt)
  | .copy2 src dst => tgt.isPrefixOf src || tgt.isPrefixOf dst

/-- An effect touching none of the given target paths. -/
def Untouched (tgts : List Path) (a : Action) : Prop :=
  ∀ t ∈ tgts, a.touches t = false

/-- A script fragment that only ever appends effects satisfying P to the
trace, whatever the starting state and however it ends. -/
def AppendsOnly (P : Action → Prop) (m : M α) : Prop :=
  ∀ s : St, ∃ δ, (m s).state.trace = s.trace ++ δ ∧ ∀ a ∈ δ, P a

/-- A script fragment that never loses the file p, however it ends. -/
def KeepsFile (p : Path) (m : M α) : Prop :=
  ∀ s : St, p ∈ s.fs.files → p ∈ (m s).state.fs.files

/-- Check that no printed line of a trace contains the given text. -/
def noPrintContains (tr : List Action) (t : String) : Bool :=
  tr.all (fun a => match a with
    | .print m => !(containsStr m t)
    | _ => true)

/-! Evaluation lemmas for the monadic primitives. -/

theorem pure_apply (a : α) (s : St) : (pure a : M α) s = .ok a s := rfl

theorem bind_apply (m : M α) (k : α → M β) (s : St) : (m >>= k) s = M.bind m k s := rfl

/-- A present command passes the prerequisite check. -/
theorem check_command_installed_ok (env : Env) (c : String) (s : St)
    (h : env.which c = true) :
    check_command_installed env c s = .ok () ⟨s.fs, s.trace ++ [.whichCheck c]⟩ := by
  simp [check_command_installed, bind_apply, M.bind, emitA, pure_apply, h]

/-- A missing command aborts the process with the diagnostic naming it,
leaving the filesystem untouched. -/
theorem check_command_installed_missing (env : Env) (c : String) (s : St)
    (h : env.which c = false) :
    check_command_installed env c s =
      .exit 1 ⟨s.fs, s.trace ++ [.whichCheck c, .print (missingMsg c)]⟩ := by
  simp [check_command_installed, bind_apply, M.bind, emitA, prints, exit1, h]

/-- A successful external command leaves only the log line and the
invocation in the trace, with the filesystem the command produced. -/
theorem run_command_ok (env : Env) (cmd : List String) (cwd : Option Path)
    (sh : Bool) (s : St) (h : (env.run cmd cwd sh s.fs).code = 0) :
    run_command env cmd cwd sh s =
      .ok () ⟨(env.run cmd cwd sh s.fs).fs,
        s.trace ++ [.print ("Running: " ++ String.intercalate " " cmd),
          .runCmd cmd cwd sh]⟩ := by
  simp [run_command, bind_apply, M.bind, emitA, prints, runExternal, pure_apply, h]

/-- A failing external command prints the error diagnostic, the literal
None as the output section, and terminates the process with status 1. -/
theorem run_command_fail (env : Env) (cmd : List String) (cwd : Option Path)
    (sh : Bool) (s : St) (h : (env.run cmd cwd sh s.fs).code ≠ 0) :
    run_command env cmd cwd sh s =
      .exit 1 ⟨(env.run cmd cwd sh s.fs).fs,
        s.trace ++ [.print ("Running: " ++ String.intercalate " " cmd),
          .runCmd cmd cwd sh,
          .print ("Error running command: " ++
            calledProcessErrorMsg cmd (env.run cmd cwd sh s.fs).code),
          .print "--- OUTPUT ---", .print "None", .print "--- END OUTPUT ---"]⟩ := by
  simp [run_command, bind_apply, M.bind, emitA, prints, runExternal, exit1, h]

/-! Computation of the pipelines when a prerequisite is missing. -/

/-- The Java pipeline with git missing: only the header, the which-check
and the diagnostic happen before the process exits. -/
theorem genJava_missing_git (env : Env) (ws : Path) (s : St)
    (h : env.which "git" = false) :
    generate_java_files env ws s =
      .exit 1 ⟨s.fs, s.trace ++ [.print "--- Generating Java Test Data ---",
        .whichCheck "git", .print (missingMsg "git")]⟩ := by
  simp [generate_java_files, check_command_installed, bind_apply, M.bind,
    emitA, prints, exit1, h]

/-- The Java pipeline with java missing. -/
theorem genJava_missing_java (env : Env) (ws : Path) (s : St)
    (h1 : env.which "git" = true) (h2 : env.which "java" = false) :
    generate_java_files env ws s =
      .exit 1 ⟨s.fs, s.trace ++ [.print "--- Generating Java Test Data ---",
        .whichCheck "git", .whichCheck "java", .print (missingMsg "java")]⟩ := by
  simp [generate_java_files, check_command_installed, bind_apply, M.bind,
    emitA, prints, exit1, h1, h2]

/-- The Java pipeline with the Maven executable missing. -/
theorem genJava_missing_mvn (env : Env) (ws : Path) (s : St)
    (h1 : env.which "git" = true) (h2 : env.which "java" = true)
    (h3 : env.which (mvnCmdName env) = false) :
    generate_java_files env ws s =
      .exit 1 ⟨s.fs, s.trace ++ [.print "--- Generating Java Test Data ---",
        .whichCheck "git", .whichCheck "java", .whichCheck (mvnCmdName env),
        .print (missingMsg (mvnCmdName env))]⟩ := by
  simp [generate_java_files, check_command_installed, bind_apply, M.bind,
    emitA, prints, exit1, h1, h2, h3]

/-- The C++ pipeline with git missing. -/
theorem genCpp_missing_git (env : Env) (ws : Path) (s : St)
    (h : env.which "git" = false) :
    generate_cpp_files env ws s =
      .exit 1 ⟨s.fs, s.trace ++ [.print "--- Generating C++ Test Data ---",
        .whichCheck "git", .print (missingMsg "git")]⟩ := by
  simp [generate_cpp_files, check_command_installed, bind_apply, M.bind,
    emitA, prints, exit1, h]

/-- The C++ pipeline with cmake missing. -/
theorem genCpp_missing_cmake (env : Env) (ws : Path) (s : St)
    (h1 : env.which "git" = true) (h2 : env.which "cmake" = false) :
    generate_cpp_files env ws s =
      .exit 1 ⟨s.fs, s.trace ++ [.print "--- Generating C++ Test Data ---",
        .whichCheck "git", .whichCheck "cmake", .print (missingMsg "cmake")]⟩ := by
  simp [generate_cpp_files, check_command_installed, bind_apply, M.bind,
    emitA, prints, exit1, h1, h2]

/-- The C++ pipeline with ctest missing. -/
theorem genCpp_missing_ctest (env : Env) (ws : Path) (s : St)
    (h1 : env.which "git" = true) (h2 : env.which "cmake" = true)
    (h3 : env.which "ctest" = false) :
    generate_cpp_files env ws s =
      .exit 1 ⟨s.fs, s.trace ++ [.print "--- Generating C++ Test Data ---",
        .whichCheck "git", .whichCheck "cmake", .whichCheck "ctest",
        .print (missingMsg "ctest")]⟩ := by
  simp [generate_cpp_files, check_command_installed, bind_apply, M.bind,
    emitA, prints, exit1, h1, h2, h3]

/-- C3: invoking the program with no CLI flags performs exactly the same
sequence of steps as invoking it with the all flag, and in both cases the
two pipelines run sequentially with the Java pipeline strictly before the
C++ pipeline. -/
theorem no_flags_equiv_all (env : Env) (ws : Path) (s : St) :
    mainRun env ws false false false s = mainRun env ws false false true s ∧
    mainRun env ws false false false s =
      M.bind (generate_java_files env ws) (fun _ => generate_cpp_files env ws) s :=
  ⟨rfl, rfl⟩

/-- A string contains the piece t when t occurs between two other pieces. -/
theorem containsStr_of_parts (a t b s : String) (h : s = a ++ t ++ b) :
    containsStr s t = true := by
  subst h
  simp only [containsStr, decide_eq_true_eq]
  exact ⟨a.data, b.data, by simp [String.data_append]⟩

/-- A string contains its final piece. -/
theorem containsStr_append_right (a t : String) : containsStr (a ++ t) t = true := by
  simp only [containsStr, decide_eq_true_eq]
  exact ⟨a.data, [], by simp [String.data_append]⟩

/-- C6: if the expected generated-files directory inside the Java clone
does not exist at the copy step, the process prints a message naming the
missing path and exits with status 1, the filesystem untouched. -/
theorem java_generated_dir_missing_fatal (ws : Path) (s : St)
    (h : s.fs.pathExists (javaGeneratedDir ws) = false) :
    copyGeneratedJavaFiles (javaGeneratedDir ws) (javaOutputDir ws) s =
      Res.exit 1 ⟨s.fs, s.trace ++ [.existsCheck (javaGeneratedDir ws),
        .print ("Error: Expected generated files directory not found at " ++
          pathStr (javaGeneratedDir ws))]⟩ ∧
    containsStr ("Error: Expected generated files directory not found at " ++
      pathStr (javaGeneratedDir ws)) (pathStr (javaGeneratedDir ws)) = true := by
  constructor
  · simp [copyGeneratedJavaFiles, bind_apply, M.bind, emitA, prints, getFS,
      exit1, h]
  · exact containsStr_append_right _ _

/-- C2: when a required tool of a pipeline does not resolve on the path,
that pipeline prints a diagnostic naming a missing command and terminates
the process with exit status 1, and its trace contains no subprocess
invocation: no network, clone or build action was attempted. -/
theorem prereq_missing_aborts_before_commands (env : Env) (ws : Path) (fs : FS) :
    (¬ (env.which "git" = true ∧ env.which "java" = true ∧
        env.which (mvnCmdName env) = true) →
      ∃ c st, env.which c = false ∧
        generate_java_files env ws ⟨fs, []⟩ = Res.exit 1 st ∧
        Action.print (missingMsg c) ∈ st.trace ∧
        ∀ a ∈ st.trace, ∀ cmd cwd sh, a ≠ Action.runCmd cmd cwd sh) ∧
    (¬ (env.which "git" = true ∧ env.which "cmake" = true ∧
        env.which "ctest" = true) →
      ∃ c st, env.which c = false ∧
        generate_cpp_files env ws ⟨fs, []⟩ = Res.exit 1 st ∧
        Action.print (missingMsg c) ∈ st.trace ∧
        ∀ a ∈ st.trace, ∀ cmd cwd sh, a ≠ Action.runCmd cmd cwd sh) := by
  constructor
  · intro h
    cases hg : env.which "git" with
    | false =>
      refine ⟨"git", _, hg, genJava_missing_git env ws ⟨fs, []⟩ hg, by simp, ?_⟩
      intro a ha cmd cwd sh
      simp at ha
      rcases ha with rfl | rfl | rfl <;> simp
    | true =>
      cases hj : env.which "java" with
      | false =>
        refine ⟨"java", _, hj, genJava_missing_java env ws ⟨fs, []⟩ hg hj, by simp, ?_⟩
        intro a ha cmd cwd sh
        simp at ha
        rcases ha with rfl | rfl | rfl | rfl <;> simp
      | true =>
        cases hm : env.which (mvnCmdName env) with
        | false =>
          refine ⟨mvnCmdName env, _, hm,
            genJava_missing_mvn env ws ⟨fs, []⟩ hg hj hm, by simp, ?_⟩
          intro a ha cmd cwd sh
          simp at ha
          rcases ha with rfl | rfl | rfl | rfl | rfl <;> simp
        | true => exact absurd ⟨hg, hj, hm⟩ h
  · intro h
    cases hg : env.which "git" with
    | false =>
      refine ⟨"git", _, hg, genCpp_missing_git env ws ⟨fs, []⟩ hg, by simp, ?_⟩
      intro a ha cmd cwd sh
      simp at ha
      rcases ha with rfl | rfl | rfl <;> simp
    | true =>
      cases hc : env.which "cmake" with
      | false =>
        refine ⟨"cmake", _, hc, genCpp_missing_cmake env ws ⟨fs, []⟩ hg hc, by simp, ?_⟩
        intro a ha cmd cwd sh
        simp at ha
        rcases ha with rfl | rfl | rfl | rfl <;> simp
      | true =>
        cases ht : env.which "ctest" with
        | false =>
          refine ⟨"ctest", _, ht,
            genCpp_missing_ctest env ws ⟨fs, []⟩ hg hc ht, by simp, ?_⟩
          intro a ha cmd cwd sh
          simp at ha
          rcases ha with rfl | rfl | rfl | rfl | rfl <;> simp
        | true => exact absurd ⟨hg, hc, ht⟩ h

/-- C2 witness: with no tool installed, the Java pipeline at a concrete
workspace aborts with status 1 before any subprocess invocation. -/
theorem prereq_missing_aborts_before_commands_witness :
    (¬ (envNoTools.which "git" = true ∧ envNoTools.which "java" = true ∧
        envNoTools.which (mvnCmdName envNoTools) = true)) ∧
    (∃ c st, envNoTools.which c = false ∧
      generate_java_files envNoTools ["w"] ⟨fsEmpty, []⟩ = Res.exit 1 st ∧
      Action.print (missingMsg c) ∈ st.trace ∧
      ∀ a ∈ st.trace, ∀ cmd cwd sh, a ≠ Action.runCmd cmd cwd sh) :=
  ⟨by decide,
   (prereq_missing_aborts_before_commands envNoTools ["w"] fsEmpty).1 (by decide)⟩

/-- C10: a pipeline aborted by a missing prerequisite leaves the
filesystem exactly as it found it: in particular a leftover temporary
clone directory from a previous failed run is not removed, because all
prerequisite checks run before the cleanup step. -/
theorem prereq_missing_leaves_fs_unchanged (env : Env) (ws : Path) (fs : FS) :
    (¬ (env.which "git" = true ∧ env.which "java" = true ∧
        env.which (mvnCmdName env) = true) →
      ∃ st, generate_java_files env ws ⟨fs, []⟩ = Res.exit 1 st ∧ st.fs = fs) ∧
    (¬ (env.which "git" = true ∧ env.which "cmake" = true ∧
        env.which "ctest" = true) →
      ∃ st, generate_cpp_files env ws ⟨fs, []⟩ = Res.exit 1 st ∧ st.fs = fs) := by
  constructor
  · intro h
    cases hg : env.which "git" with
    | false => exact ⟨_, genJava_missing_git env ws ⟨fs, []⟩ hg, rfl⟩
    | true =>
      cases hj : env.which "java" with
      | false => exact ⟨_, genJava_missing_java env ws ⟨fs, []⟩ hg hj, rfl⟩
      | true =>
        cases hm : env.which (mvnCmdName env) with
        | false => exact ⟨_, genJava_missing_mvn env ws ⟨fs, []⟩ hg hj hm, rfl⟩
        | true => exact absurd ⟨hg, hj, hm⟩ h
  · intro h
    cases hg : env.which "git" with
    | false => exact ⟨_, genCpp_missing_git env ws ⟨fs, []⟩ hg, rfl⟩
    | true =>
      cases hc : env.which "cmake" with
      | false => exact ⟨_, genCpp_missing_cmake env ws ⟨fs, []⟩ hg hc, rfl⟩
      | true =>
        cases ht : env.which "ctest" with
        | false => exact ⟨_, genCpp_missing_ctest env ws ⟨fs, []⟩ hg hc ht, rfl⟩
        | true => exact absurd ⟨hg, hc, ht⟩ h

/-- C10 witness: with no tool installed and a leftover temporary clone
directory on disk, the C++ pipeline aborts and the directory survives. -/
theorem prereq_missing_leaves_fs_unchanged_witness :
    (¬ (envNoTools.which "git" = true ∧ envNoTools.which "cmake" = true ∧
        envNoTools.which "ctest" = true)) ∧
    (∃ st, generate_cpp_files envNoTools ["w"]
        ⟨⟨[["w", "tmp_datasketches_cpp"]], []⟩, []⟩ = Res.exit 1 st ∧
      st.fs = ⟨[["w", "tmp_datasketches_cpp"]], []⟩) :=
  ⟨by decide,
   (prereq_missing_leaves_fs_unchanged envNoTools ["w"]
     ⟨[["w", "tmp_datasketches_cpp"]], []⟩).2 (by decide)⟩

/-- C6 witness: at a concrete workspace with an empty filesystem, the
copy step aborts with status 1 and the message naming the missing path. -/
theorem java_generated_dir_missing_fatal_witness :
    (fsEmpty.pathExists (javaGeneratedDir ["w"]) = false) ∧
    (copyGeneratedJavaFiles (javaGeneratedDir ["w"]) (javaOutputDir ["w"])
        ⟨fsEmpty, []⟩ =
      Res.exit 1 ⟨fsEmpty, [.existsCheck (javaGeneratedDir ["w"]),
        .print ("Error: Expected generated files directory not found at " ++
          pathStr (javaGeneratedDir ["w"]))]⟩ ∧
     containsStr ("Error: Expected generated files directory not found at " ++
       pathStr (javaGeneratedDir ["w"])) (pathStr (javaGeneratedDir ["w"])) = true) :=
  ⟨by decide, java_generated_dir_missing_fatal ["w"] ⟨fsEmpty, []⟩ (by decide)⟩

/-- C1 (amended): when a command invoked through run_command exits with a
non-zero status, the helper prints a diagnostic that includes the failing
command and its exit status, prints the literal text None in the output
section because no output was captured (it streams to the inherited
streams), and terminates the process with exit status 1. -/
theorem run_command_failure_diagnostic (env : Env) (cmd : List String)
    (cwd : Option Path) (sh : Bool) (s : St)
    (h : (env.run cmd cwd sh s.fs).code ≠ 0) :
    run_command env cmd cwd sh s =
      Res.exit 1 ⟨(env.run cmd cwd sh s.fs).fs,
        s.trace ++ [.print ("Running: " ++ String.intercalate " " cmd),
          .runCmd cmd cwd sh,
          .print ("Error running command: " ++
            calledProcessErrorMsg cmd (env.run cmd cwd sh s.fs).code),
          .print "--- OUTPUT ---", .print "None", .print "--- END OUTPUT ---"]⟩ ∧
    containsStr ("Error running command: " ++
      calledProcessErrorMsg cmd (env.run cmd cwd sh s.fs).code)
      (pyListRepr cmd) = true := by
  refine ⟨run_command_fail env cmd cwd sh s h, ?_⟩
  simp only [containsStr, decide_eq_true_eq, calledProcessErrorMsg]
  refine ⟨("Error running command: " ++ "Command \x27").data,
    ("\x27 returned non-zero exit status " ++
      toString (env.run cmd cwd sh s.fs).code ++ ".").data, ?_⟩
  simp [String.data_append, List.append_assoc]

/-- C1 witness: the amended diagnostic shape at a concrete failing command. -/
theorem run_command_failure_diagnostic_witness :
    ((envFailing.run ["make"] none false fsEmpty).code ≠ 0) ∧
    (run_command envFailing ["make"] none false ⟨fsEmpty, []⟩ =
      Res.exit 1 ⟨(envFailing.run ["make"] none false fsEmpty).fs,
        [.print ("Running: " ++ String.intercalate " " ["make"]),
         .runCmd ["make"] none false,
         .print ("Error running command: " ++
           calledProcessErrorMsg ["make"]
             (envFailing.run ["make"] none false fsEmpty).code),
         .print "--- OUTPUT ---", .print "None", .print "--- END OUTPUT ---"]⟩ ∧
     containsStr ("Error running command: " ++
       calledProcessErrorMsg ["make"]
         (envFailing.run ["make"] none false fsEmpty).code)
       (pyListRepr ["make"]) = true) :=
  ⟨by decide,
   run_command_failure_diagnostic envFailing ["make"] none false ⟨fsEmpty, []⟩
     (by decide)⟩

set_option maxRecDepth 8000 in
/-- C1 counterexample: a command failing with status 1 whose streamed
output is BUILD FAILURE: the process terminates with status 1, yet no
line of the printed diagnostic contains that output, because run_command
does not capture output and prints the literal None in its place. -/
theorem run_command_no_captured_output_cex :
    (envFailing.run ["make"] none false fsEmpty).code ≠ 0 ∧
    (envFailing.run ["make"] none false fsEmpty).out = "BUILD FAILURE" ∧
    ∃ st, run_command envFailing ["make"] none false ⟨fsEmpty, []⟩ =
        Res.exit 1 st ∧
      noPrintContains st.trace "BUILD FAILURE" = true :=
  ⟨by decide, rfl,
   ⟨⟨fsEmpty, [.print ("Running: " ++ String.intercalate " " ["make"]),
      .runCmd ["make"] none false,
      .print ("Error running command: " ++ calledProcessErrorMsg ["make"] 1),
      .print "--- OUTPUT ---", .print "None", .print "--- END OUTPUT ---"]⟩,
    by decide, by decide⟩⟩

/-- A path is a prefix of itself. -/
theorem isPrefixOf_self (p : Path) : p.isPrefixOf p = true :=
  List.isPrefixOf_iff_prefix.mpr List.prefix_rfl

/-- After rmtree of a path, that path no longer exists. -/
theorem pathExists_rmtree_self (fs : FS) (p : Path) :
    (fs.rmtree p).pathExists p = false := by
  simp [FS.rmtree, FS.pathExists, List.mem_filter, isPrefixOf_self]

/-- C4: the temporary-directory setup step, run by both pipelines before
their clone command, always succeeds, even on a filesystem where the
temporary directory pre-exists: it is removed if present and recreated,
so that afterwards the directory exists, nothing at all lies strictly
below it, and every entry outside its subtree is exactly as before.  A
second run of a pipeline therefore never fails because of a leftover
temporary directory. -/
theorem setup_temp_dir_fresh (temp : Path) (s : St)
    (hne : temp ≠ []) (hwf : s.fs.wf) :
    ∃ s', setupTempDir temp s = Res.ok () s' ∧
      temp ∈ s'.fs.dirs ∧
      (∀ p, (p ∈ s'.fs.dirs ∨ p ∈ s'.fs.files) → temp.isPrefixOf p = true →
        p = temp) ∧
      (∀ p, temp.isPrefixOf p = false →
        ((p ∈ s'.fs.dirs ↔ p ∈ s.fs.dirs) ∧ (p ∈ s'.fs.files ↔ p ∈ s.fs.files))) := by
  cases hex : s.fs.pathExists temp with
  | true =>
    refine ⟨⟨⟨temp :: (s.fs.rmtree temp).dirs, (s.fs.rmtree temp).files⟩,
      s.trace ++ [.existsCheck temp,
        .print ("Removing existing temporary directory: " ++ pathStr temp),
        .rmtree temp, .mkdir temp]⟩, ?_, ?_, ?_, ?_⟩
    · simp [setupTempDir, bind_apply, M.bind, emitA, prints, getFS, rmtreeM,
        modifyFS, mkdirStrict, pure_apply, hex, pathExists_rmtree_self]
    · exact List.mem_cons_self _ _
    · rintro p (hp | hp) hpre
      · rcases List.mem_cons.mp hp with rfl | hp2
        · rfl
        · exfalso
          have := (List.mem_filter.mp hp2).2
          simp [hpre] at this
      · exfalso
        have := (List.mem_filter.mp hp).2
        simp [hpre] at this
    · intro p hpre
      have hpt : p ≠ temp := by
        rintro rfl
        simp [isPrefixOf_self] at hpre
      constructor
      · simp only [FS.rmtree, List.mem_cons, List.mem_filter]
        constructor
        · rintro (rfl | ⟨h1, _⟩)
          · exact absurd rfl hpt
          · exact h1
        · intro h1
          exact Or.inr ⟨h1, by simp [hpre]⟩
      · simp only [FS.rmtree, List.mem_filter]
        constructor
        · rintro ⟨h1, _⟩
          exact h1
        · intro h1
          exact ⟨h1, by simp [hpre]⟩
  | false =>
    have hnotin : temp ∉ s.fs.dirs ∧ temp ∉ s.fs.files := by
      constructor <;> (intro hmem; simp [FS.pathExists] at hex; tauto)
    refine ⟨⟨⟨temp :: s.fs.dirs, s.fs.files⟩,
      s.trace ++ [.existsCheck temp, .mkdir temp]⟩, ?_, ?_, ?_, ?_⟩
    · simp [setupTempDir, bind_apply, M.bind, emitA, prints, getFS, rmtreeM,
        modifyFS, mkdirStrict, pure_apply, hex]
    · exact List.mem_cons_self _ _
    · rintro p (hp | hp) hpre
      · rcases List.mem_cons.mp hp with rfl | hp2
        · rfl
        · by_contra hpt
          have hpref : temp <+: p := List.isPrefixOf_iff_prefix.mp hpre
          have hlt : temp.length < p.length := by
            rcases Nat.lt_or_ge temp.length p.length with h | h
            · exact h
            · exact absurd (List.IsPrefix.eq_of_length hpref
                (Nat.le_antisymm hpref.length_le h)).symm hpt
          have htake : p.take temp.length = temp :=
            (List.prefix_iff_eq_take.mp hpref).symm
          have := hwf p (List.mem_append.mpr (Or.inl hp2)) temp.length hlt
            (List.length_pos.mpr hne)
          rw [htake] at this
          exact hnotin.1 this
      · by_contra hpt
        have hpref : temp <+: p := List.isPrefixOf_iff_prefix.mp hpre
        have hlt : temp.length < p.length := by
          rcases Nat.lt_or_ge temp.length p.length with h | h
          · exact h
          · exact absurd (List.IsPrefix.eq_of_length hpref
              (Nat.le_antisymm hpref.length_le h)) (fun hEq => hpt (hEq ▸ rfl))
        have htake : p.take temp.length = temp :=
          (List.prefix_iff_eq_take.mp hpref).symm
        have := hwf p (List.mem_append.mpr (Or.inr hp)) temp.length hlt
          (List.length_pos.mpr hne)
        rw [htake] at this
        exact hnotin.1 this
    · intro p hpre
      have hpt : p ≠ temp := by
        rintro rfl
        simp [isPrefixOf_self] at hpre
      refine ⟨?_, Iff.rfl⟩
      simp only [List.mem_cons]
      constructor
      · rintro (rfl | h1)
        · exact absurd rfl hpt
        · exact h1
      · exact Or.inr

/-- C4 witness: a workspace where the temporary directory pre-exists with
a stale file inside it; the setup succeeds and leaves it fresh. -/
theorem setup_temp_dir_fresh_witness :
    (["w", "tmp"] : Path) ≠ [] ∧
    (FS.mk [["w"], ["w", "tmp"]] [["w", "tmp", "old.sk"]]).wf ∧
    ∃ s', setupTempDir ["w", "tmp"]
        ⟨FS.mk [["w"], ["w", "tmp"]] [["w", "tmp", "old.sk"]], []⟩ = Res.ok () s' ∧
      (["w", "tmp"] : Path) ∈ s'.fs.dirs ∧
      (∀ p, (p ∈ s'.fs.dirs ∨ p ∈ s'.fs.files) →
        (["w", "tmp"] : Path).isPrefixOf p = true → p = ["w", "tmp"]) ∧
      (∀ p, (["w", "tmp"] : Path).isPrefixOf p = false →
        ((p ∈ s'.fs.dirs ↔
          p ∈ (⟨FS.mk [["w"], ["w", "tmp"]] [["w", "tmp", "old.sk"]],
            ([] : List Action)⟩ : St).fs.dirs) ∧
         (p ∈ s'.fs.files ↔
          p ∈ (⟨FS.mk [["w"], ["w", "tmp"]] [["w", "tmp", "old.sk"]],
            ([] : List Action)⟩ : St).fs.files))) :=
  ⟨by decide, by decide,
   setup_temp_dir_fresh ["w", "tmp"]
     ⟨FS.mk [["w"], ["w", "tmp"]] [["w", "tmp", "old.sk"]], []⟩
     (by decide) (by decide)⟩

/-- The base name of a path lies in any suffix that still contains it. -/
theorem lastName_mem_drop (f : Path) (n : Nat) (h : n < f.length) :
    lastName f ∈ f.drop n := by
  have hd : f.drop n ≠ [] := by
    intro hEq
    have h2 := congrArg List.length hEq
    simp at h2
    omega
  have h1 : f.getLast? = (f.drop n).getLast? := by
    conv_lhs => rw [← List.take_append_drop n f]
    exact List.getLast?_append_of_ne_nil _ hd
  cases hEq : (f.drop n).getLast? with
  | none =>
    exfalso
    simp at hEq
    omega
  | some a =>
    have h3 : lastName f = a := by simp [lastName, h1, hEq]
    rw [h3]
    exact List.mem_of_mem_getLast? hEq

/-- One step of the copy loop on a file match: the copy is recorded and
the file placed, then the loop continues. -/
theorem copyLoop_cons_eq (out f : Path) (rest : List Path) (s : St)
    (hcf : f ∉ s.fs.dirs) :
    copyLoop out (f :: rest) s = copyLoop out rest
      ⟨⟨s.fs.dirs, (out ++ [lastName f]) :: s.fs.files⟩,
       (s.trace ++ [Action.copy2 f (out ++ [lastName f])]) ++
         [Action.print ("Copied: " ++ lastName f)]⟩ := by
  show M.bind (copy2M f out)
      (fun _ => M.bind (prints ("Copied: " ++ lastName f))
        (fun _ => copyLoop out rest)) s = _
  simp [M.bind, copy2M, prints, emitA, hcf, lastName]

/-- One step of the copy loop on a directory match: shutil.copy2 raises
IsADirectoryError and, uncaught, it kills the process. -/
theorem copyLoop_cons_crash (out f : Path) (rest : List Path) (s : St)
    (hcf : f ∈ s.fs.dirs) :
    copyLoop out (f :: rest) s =
      Res.crash ("IsADirectoryError: " ++ pathStr f) s := by
  show M.bind (copy2M f out)
      (fun _ => M.bind (prints ("Copied: " ++ lastName f))
        (fun _ => copyLoop out rest)) s = _
  simp [M.bind, copy2M, hcf]

/-- Behaviour of the harvest copy loop on a match list that holds no
directory (on a directory match, shutil.copy2 would raise an uncaught
IsADirectoryError): it completes normally, only adds files, only appends
trace entries, leaves directories unchanged, and for each input file
records the copy and places the file, under its base name, in the output
directory. -/
theorem copyLoop_spec (out : Path) (l : List Path) (s : St)
    (hnd : ∀ f ∈ l, s.fs.dirs.contains f = false) :
    ∃ s', copyLoop out l s = Res.ok () s' ∧
      s'.fs.dirs = s.fs.dirs ∧
      (∀ p, p ∈ s.fs.files → p ∈ s'.fs.files) ∧
      (∀ a ∈ s.trace, a ∈ s'.trace) ∧
      (∀ f ∈ l, (out ++ [lastName f]) ∈ s'.fs.files ∧
        Action.copy2 f (out ++ [lastName f]) ∈ s'.trace) := by
  induction l generalizing s with
  | nil => exact ⟨s, rfl, rfl, fun p hp => hp, fun a ha => ha, by simp⟩
  | cons f rest ih =>
    have hcf : s.fs.dirs.contains f = false := hnd f (List.mem_cons_self _ _)
    have hcfm : f ∉ s.fs.dirs := by simpa using hcf
    obtain ⟨s', h1, h2, h3, h4, h5⟩ := ih
      ⟨⟨s.fs.dirs, (out ++ [lastName f]) :: s.fs.files⟩,
       (s.trace ++ [Action.copy2 f (out ++ [lastName f])]) ++
         [Action.print ("Copied: " ++ lastName f)]⟩
      (fun g hg => hnd g (List.mem_cons_of_mem _ hg))
    have key := copyLoop_cons_eq out f rest s hcfm
    refine ⟨s', key.trans h1, h2, ?_, ?_, ?_⟩
    · intro p hp
      exact h3 p (List.mem_cons_of_mem _ hp)
    · intro a ha
      exact h4 a (List.mem_append_left _ (List.mem_append_left _ ha))
    · intro g hg
      rcases List.mem_cons.mp hg with rfl | hg2
      · exact ⟨h3 _ (List.mem_cons_self _ _),
          h4 _ (List.mem_append_left _ (List.mem_append_right _ (by simp)))⟩
      · exact h5 g hg2

/-- Whatever way the copy loop ends (normally, or crashed on a directory
match), it never changes the directory set. -/
theorem copyLoop_dirs (out : Path) : ∀ (l : List Path) (s : St),
    ((copyLoop out l) s).state.fs.dirs = s.fs.dirs := by
  intro l
  induction l with
  | nil => intro s; rfl
  | cons f rest ih =>
    intro s
    by_cases hc : f ∈ s.fs.dirs
    · rw [copyLoop_cons_crash out f rest s hc]
      rfl
    · rw [copyLoop_cons_eq out f rest s hc, ih]

/-- A sequential composition whose pieces preserve the directory set
preserves it, whatever way the first piece ends. -/
theorem bind_state_dirs_eq {m : M α} {k : α → M β} (s : St)
    (hm : (m s).state.fs.dirs = s.fs.dirs)
    (hk : ∀ a s1, ((k a) s1).state.fs.dirs = s1.fs.dirs) :
    ((M.bind m k) s).state.fs.dirs = s.fs.dirs := by
  unfold M.bind
  cases hres : m s with
  | ok a s1 =>
    rw [hres] at hm
    rw [hk a s1]
    exact hm
  | exit c s1 =>
    rw [hres] at hm
    exact hm
  | crash e s1 =>
    rw [hres] at hm
    exact hm

/-- C5: the C++ harvest searches the build tree recursively: every
file whose name ends in the fixed suffix, at any nesting depth
below the build directory, hidden components included, is recorded as
copied and lands, under its base name, in the flat output directory
(provided no directory below the build tree matches the pattern, a state
in which the script would instead die on an uncaught IsADirectoryError
inside the loop); the Java harvest pattern, by contrast, only ever
matches direct children of its fixed directory. -/
theorem harvest_recursive_vs_flat :
    (∀ (ws : Path) (s : St) (f : Path),
      f ∈ s.fs.files →
      (cppBuildDir ws).isPrefixOf f = true →
      (cppBuildDir ws).length < f.length →
      cppSkName (lastName f) = true →
      (∀ d ∈ s.fs.dirs, (cppBuildDir ws).isPrefixOf d = true →
        (cppBuildDir ws).length < d.length → cppSkName (lastName d) = false) →
      ∃ s', copyCppFiles (cppBuildDir ws) (cppOutputDir ws) s = Res.ok () s' ∧
        Action.copy2 f (cppOutputDir ws ++ [lastName f]) ∈ s'.trace ∧
        (cppOutputDir ws ++ [lastName f]) ∈ s'.fs.files) ∧
    (∀ (fs : FS) (dir f : Path), f ∈ javaSkMatches fs dir → f.dropLast = dir) := by
  constructor
  · intro ws s f hf hpre hlen hend hnodir
    have hmem : f ∈ cppSkMatches
        ⟨ancestors (cppOutputDir ws) ++ s.fs.dirs, s.fs.files⟩ (cppBuildDir ws) := by
      simp only [cppSkMatches, FS.entries, List.mem_filter, List.mem_append]
      exact ⟨Or.inl hf, by simp [hpre, hlen, hend]⟩
    have hnd : ∀ g ∈ cppSkMatches
        ⟨ancestors (cppOutputDir ws) ++ s.fs.dirs, s.fs.files⟩ (cppBuildDir ws),
        (ancestors (cppOutputDir ws) ++ s.fs.dirs).contains g = false := by
      intro g hg
      simp only [cppSkMatches, List.mem_filter, Bool.and_eq_true] at hg
      obtain ⟨-, ⟨hpre2, hlen2⟩, hend2⟩ := hg
      have hlen2n : (cppBuildDir ws).length < g.length := of_decide_eq_true hlen2
      have hnotin : g ∉ ancestors (cppOutputDir ws) ++ s.fs.dirs := by
        intro hgin
        rcases List.mem_append.mp hgin with hA | hD
        · simp only [ancestors, List.mem_map, List.mem_range] at hA
          obtain ⟨i, hi, hpi⟩ := hA
          have hle : g.length ≤ (cppOutputDir ws).length := by
            rw [← hpi]
            simp only [List.length_take]
            omega
          have hbd2 : (cppBuildDir ws).length = ws.length + 2 := by
            simp only [cppBuildDir, cppTempDir, List.length_append,
              List.length_cons, List.length_nil]
          have hod2 : (cppOutputDir ws).length = ws.length + 2 := by
            simp only [cppOutputDir, List.length_append,
              List.length_cons, List.length_nil]
          omega
        · rw [hnodir g hD hpre2 hlen2n] at hend2
          simp at hend2
      simpa using hnotin
    have hne : cppSkMatches
        ⟨ancestors (cppOutputDir ws) ++ s.fs.dirs, s.fs.files⟩ (cppBuildDir ws) ≠ [] :=
      List.ne_nil_of_mem hmem
    obtain ⟨s', h1, h2, h3, h4, h5⟩ := copyLoop_spec (cppOutputDir ws)
      (cppSkMatches ⟨ancestors (cppOutputDir ws) ++ s.fs.dirs, s.fs.files⟩
        (cppBuildDir ws))
      ⟨⟨ancestors (cppOutputDir ws) ++ s.fs.dirs, s.fs.files⟩,
       ((s.trace ++
           [Action.print ("Copying files to " ++ pathStr (cppOutputDir ws))]) ++
         [Action.mkdirParents (cppOutputDir ws)]) ++
         [Action.globSearch (cppBuildDir ws) "**/*_cpp.sk"]⟩
      hnd
    have key : copyCppFiles (cppBuildDir ws) (cppOutputDir ws) s =
      M.bind (copyLoop (cppOutputDir ws)
          (cppSkMatches ⟨ancestors (cppOutputDir ws) ++ s.fs.dirs, s.fs.files⟩
            (cppBuildDir ws)))
        (fun _ => if (cppSkMatches
              ⟨ancestors (cppOutputDir ws) ++ s.fs.dirs, s.fs.files⟩
              (cppBuildDir ws)).length = 0 then
            prints "Warning: No *_cpp.sk files were found to copy."
          else
            prints ("Successfully copied " ++
              toString (cppSkMatches
                ⟨ancestors (cppOutputDir ws) ++ s.fs.dirs, s.fs.files⟩
                (cppBuildDir ws)).length ++ " files."))
        ⟨⟨ancestors (cppOutputDir ws) ++ s.fs.dirs, s.fs.files⟩,
         ((s.trace ++
             [Action.print ("Copying files to " ++ pathStr (cppOutputDir ws))]) ++
           [Action.mkdirParents (cppOutputDir ws)]) ++
           [Action.globSearch (cppBuildDir ws) "**/*_cpp.sk"]⟩ := rfl
    refine ⟨⟨s'.fs, s'.trace ++ [Action.print ("Successfully copied " ++
      toString (cppSkMatches
        ⟨ancestors (cppOutputDir ws) ++ s.fs.dirs, s.fs.files⟩
        (cppBuildDir ws)).length ++ " files.")]⟩, ?_, ?_, ?_⟩
    · rw [key]
      simp only [M.bind]
      rw [h1]
      rw [if_neg (fun h0 => hne (List.length_eq_zero.mp h0))]
      rfl
    · exact List.mem_append_left _ (h5 f hmem).2
    · exact (h5 f hmem).1
  · intro fs dir f h
    simp only [javaSkMatches, List.mem_filter, Bool.and_eq_true, beq_iff_eq] at h
    exact h.2.1

/-- C5 witness: two files named foo_cpp.sk at two different depths under
the build directory, and a third match inside a hidden subdirectory, are
all copied into the flat output directory. -/
theorem harvest_recursive_vs_flat_witness :
    (∃ s', copyCppFiles (cppBuildDir ["w"]) (cppOutputDir ["w"])
        ⟨⟨[], [["w", "tmp_datasketches_cpp", "build", "t", "foo_cpp.sk"],
               ["w", "tmp_datasketches_cpp", "build", "t", "u", "foo_cpp.sk"],
               ["w", "tmp_datasketches_cpp", "build", ".hdir", "bar_cpp.sk"]]⟩,
         []⟩ = Res.ok () s' ∧
      Action.copy2 ["w", "tmp_datasketches_cpp", "build", "t", "foo_cpp.sk"]
        (cppOutputDir ["w"] ++
          [lastName ["w", "tmp_datasketches_cpp", "build", "t", "foo_cpp.sk"]]) ∈
        s'.trace ∧
      (cppOutputDir ["w"] ++
        [lastName ["w", "tmp_datasketches_cpp", "build", "t", "foo_cpp.sk"]]) ∈
        s'.fs.files) ∧
    (∃ s', copyCppFiles (cppBuildDir ["w"]) (cppOutputDir ["w"])
        ⟨⟨[], [["w", "tmp_datasketches_cpp", "build", "t", "foo_cpp.sk"],
               ["w", "tmp_datasketches_cpp", "build", "t", "u", "foo_cpp.sk"],
               ["w", "tmp_datasketches_cpp", "build", ".hdir", "bar_cpp.sk"]]⟩,
         []⟩ = Res.ok () s' ∧
      Action.copy2 ["w", "tmp_datasketches_cpp", "build", "t", "u", "foo_cpp.sk"]
        (cppOutputDir ["w"] ++
          [lastName ["w", "tmp_datasketches_cpp", "build", "t", "u", "foo_cpp.sk"]]) ∈
        s'.trace ∧
      (cppOutputDir ["w"] ++
        [lastName ["w", "tmp_datasketches_cpp", "build", "t", "u", "foo_cpp.sk"]]) ∈
        s'.fs.files) ∧
    (∃ s', copyCppFiles (cppBuildDir ["w"]) (cppOutputDir ["w"])
        ⟨⟨[], [["w", "tmp_datasketches_cpp", "build", "t", "foo_cpp.sk"],
               ["w", "tmp_datasketches_cpp", "build", "t", "u", "foo_cpp.sk"],
               ["w", "tmp_datasketches_cpp", "build", ".hdir", "bar_cpp.sk"]]⟩,
         []⟩ = Res.ok () s' ∧
      Action.copy2 ["w", "tmp_datasketches_cpp", "build", ".hdir", "bar_cpp.sk"]
        (cppOutputDir ["w"] ++
          [lastName ["w", "tmp_datasketches_cpp", "build", ".hdir", "bar_cpp.sk"]]) ∈
        s'.trace ∧
      (cppOutputDir ["w"] ++
        [lastName ["w", "tmp_datasketches_cpp", "build", ".hdir", "bar_cpp.sk"]]) ∈
        s'.fs.files) :=
  ⟨harvest_recursive_vs_flat.1 ["w"]
      ⟨⟨[], [["w", "tmp_datasketches_cpp", "build", "t", "foo_cpp.sk"],
             ["w", "tmp_datasketches_cpp", "build", "t", "u", "foo_cpp.sk"],
             ["w", "tmp_datasketches_cpp", "build", ".hdir", "bar_cpp.sk"]]⟩, []⟩
      ["w", "tmp_datasketches_cpp", "build", "t", "foo_cpp.sk"]
      (by decide) (by decide) (by decide) (by decide) (by decide),
   harvest_recursive_vs_flat.1 ["w"]
      ⟨⟨[], [["w", "tmp_datasketches_cpp", "build", "t", "foo_cpp.sk"],
             ["w", "tmp_datasketches_cpp", "build", "t", "u", "foo_cpp.sk"],
             ["w", "tmp_datasketches_cpp", "build", ".hdir", "bar_cpp.sk"]]⟩, []⟩
      ["w", "tmp_datasketches_cpp", "build", "t", "u", "foo_cpp.sk"]
      (by decide) (by decide) (by decide) (by decide) (by decide),
   harvest_recursive_vs_flat.1 ["w"]
      ⟨⟨[], [["w", "tmp_datasketches_cpp", "build", "t", "foo_cpp.sk"],
             ["w", "tmp_datasketches_cpp", "build", "t", "u", "foo_cpp.sk"],
             ["w", "tmp_datasketches_cpp", "build", ".hdir", "bar_cpp.sk"]]⟩, []⟩
      ["w", "tmp_datasketches_cpp", "build", ".hdir", "bar_cpp.sk"]
      (by decide) (by decide) (by decide) (by decide) (by decide)⟩

/-! Frame reasoning: fragments that never lose a given file. -/

theorem keepsFile_bind {p : Path} {m : M α} {k : α → M β}
    (hm : KeepsFile p m) (hk : ∀ a, KeepsFile p (k a)) :
    KeepsFile p (m >>= k) := by
  intro s hs
  show p ∈ (M.bind m k s).state.fs.files
  have h1 := hm s hs
  cases hcase : m s with
  | ok a s1 =>
    rw [hcase] at h1
    simp only [M.bind, hcase]
    exact hk a s1 h1
  | exit c s1 =>
    rw [hcase] at h1
    simp only [M.bind, hcase]
    exact h1
  | crash e s1 =>
    rw [hcase] at h1
    simp only [M.bind, hcase]
    exact h1

theorem keepsFile_ite {p : Path} {c : Prop} [Decidable c] {m1 m2 : M α}
    (h1 : KeepsFile p m1) (h2 : KeepsFile p m2) :
    KeepsFile p (if c then m1 else m2) := by
  by_cases hc : c
  · simpa [hc] using h1
  · simpa [hc] using h2

theorem keepsFile_pure (p : Path) (a : α) : KeepsFile p (pure a : M α) :=
  fun _ hs => hs

theorem keepsFile_emitA (p : Path) (a : Action) : KeepsFile p (emitA a) :=
  fun _ hs => hs

theorem keepsFile_prints (p : Path) (msg : String) : KeepsFile p (prints msg) :=
  fun _ hs => hs

theorem keepsFile_exit1 (p : Path) : KeepsFile p exit1 :=
  fun _ hs => hs

theorem keepsFile_getFS (p : Path) : KeepsFile p getFS :=
  fun _ hs => hs

theorem keepsFile_mkdirStrict (p q : Path) : KeepsFile p (mkdirStrict q) := by
  intro s hs
  simp only [mkdirStrict]
  split
  · exact hs
  · exact hs

theorem keepsFile_mkdirOk (p q : Path) : KeepsFile p (mkdirOk q) := by
  intro s hs
  simp only [mkdirOk]
  split
  · exact hs
  · exact hs

theorem keepsFile_mkdirParentsOk (p q : Path) : KeepsFile p (mkdirParentsOk q) :=
  fun _ hs => hs

theorem keepsFile_rmtreeM (p q : Path) (h : q.isPrefixOf p = false) :
    KeepsFile p (rmtreeM q) := by
  intro s hs
  show p ∈ (s.fs.rmtree q).files
  simp [FS.rmtree, List.mem_filter, hs, h]

theorem keepsFile_run_command (p : Path) (env : Env) (cmd : List String)
    (cwd : Option Path) (sh : Bool)
    (h : ∀ g : FS, p ∈ g.files → p ∈ (env.run cmd cwd sh g).fs.files) :
    KeepsFile p (run_command env cmd cwd sh) := by
  intro s hs
  by_cases hc : (env.run cmd cwd sh s.fs).code = 0
  · rw [run_command_ok env cmd cwd sh s hc]
    exact h s.fs hs
  · rw [run_command_fail env cmd cwd sh s hc]
    exact h s.fs hs

theorem keepsFile_check (p : Path) (env : Env) (c : String) :
    KeepsFile p (check_command_installed env c) := by
  intro s hs
  by_cases h : env.which c = true
  · rw [check_command_installed_ok env c s h]
    exact hs
  · rw [check_command_installed_missing env c s (by simpa using h)]
    exact hs

/-- Evaluation of the setup step when the temporary directory exists. -/
theorem setupTempDir_exists_true (temp : Path) (s : St)
    (hex : s.fs.pathExists temp = true) :
    setupTempDir temp s = Res.ok ()
      ⟨⟨temp :: (s.fs.rmtree temp).dirs, (s.fs.rmtree temp).files⟩,
       s.trace ++ [.existsCheck temp,
         .print ("Removing existing temporary directory: " ++ pathStr temp),
         .rmtree temp, .mkdir temp]⟩ := by
  simp [setupTempDir, bind_apply, M.bind, emitA, prints, getFS, rmtreeM,
    modifyFS, mkdirStrict, pure_apply, hex, pathExists_rmtree_self]

/-- Evaluation of the setup step when the temporary directory is absent. -/
theorem setupTempDir_exists_false (temp : Path) (s : St)
    (hex : s.fs.pathExists temp = false) :
    setupTempDir temp s = Res.ok ()
      ⟨⟨temp :: s.fs.dirs, s.fs.files⟩,
       s.trace ++ [.existsCheck temp, .mkdir temp]⟩ := by
  simp [setupTempDir, bind_apply, M.bind, emitA, prints, getFS, rmtreeM,
    modifyFS, mkdirStrict, pure_apply, hex]

theorem keepsFile_setupTempDir (p temp : Path)
    (h : temp.isPrefixOf p = false) : KeepsFile p (setupTempDir temp) := by
  intro s hs
  by_cases hex : s.fs.pathExists temp = true
  · rw [setupTempDir_exists_true temp s hex]
    show p ∈ (s.fs.rmtree temp).files
    simp [FS.rmtree, List.mem_filter, hs, h]
  · rw [setupTempDir_exists_false temp s (by simpa using hex)]
    exact hs

theorem keepsFile_copy2M (p f out : Path) : KeepsFile p (copy2M f out) := by
  intro s hs
  simp only [copy2M]
  split
  · exact hs
  · exact List.mem_cons_of_mem _ hs

theorem keepsFile_copyLoop (p out : Path) (l : List Path) :
    KeepsFile p (copyLoop out l) := by
  induction l with
  | nil => exact keepsFile_pure p ()
  | cons f rest ih =>
    show KeepsFile p (copyLoop out (f :: rest))
    unfold copyLoop
    exact keepsFile_bind (keepsFile_copy2M _ _ _)
      (fun x => keepsFile_bind (keepsFile_prints _ _) (fun y => ih))

/-- Evaluation of the Java dir-missing branch of the copy step. -/
theorem copyGenJava_missing_eq (gen out : Path) (s : St)
    (hex : s.fs.pathExists gen = false) :
    copyGeneratedJavaFiles gen out s =
      Res.exit 1 ⟨s.fs, s.trace ++ [.existsCheck gen,
        .print ("Error: Expected generated files directory not found at " ++
          pathStr gen)]⟩ := by
  simp [copyGeneratedJavaFiles, bind_apply, M.bind, emitA, prints, getFS,
    exit1, hex]

/-- Reduction of the Java copy step, when the generated directory exists,
to its copy loop followed by the final report. -/
theorem copyGenJava_exists_eq (gen out : Path) (s : St)
    (hex : s.fs.pathExists gen = true) :
    copyGeneratedJavaFiles gen out s =
      M.bind (copyLoop out
          (javaSkMatches ⟨ancestors out ++ s.fs.dirs, s.fs.files⟩ gen))
        (fun _ => if (javaSkMatches
              ⟨ancestors out ++ s.fs.dirs, s.fs.files⟩ gen).length = 0 then
            prints "Warning: No .sk files were found to copy."
          else
            prints ("Successfully copied " ++
              toString (javaSkMatches
                ⟨ancestors out ++ s.fs.dirs, s.fs.files⟩ gen).length ++
              " files."))
        ⟨⟨ancestors out ++ s.fs.dirs, s.fs.files⟩,
         ((s.trace ++ [.existsCheck gen,
             .print ("Copying files from " ++ pathStr gen ++ " to " ++
               pathStr out)]) ++ [.mkdirParents out]) ++
           [.globSearch gen "*.sk"]⟩ := by
  simp [copyGeneratedJavaFiles, bind_apply, M.bind, emitA, prints, getFS,
    mkdirParentsOk, pure_apply, hex]

/-- Reduction of the C++ copy step to its copy loop followed by the
final report; the matches are computed on the filesystem as it stands at
glob time, the output directory and its parents having been created. -/
theorem copyCpp_eq (bd out : Path) (s : St) :
    copyCppFiles bd out s =
      M.bind (copyLoop out
          (cppSkMatches ⟨ancestors out ++ s.fs.dirs, s.fs.files⟩ bd))
        (fun _ => if (cppSkMatches
              ⟨ancestors out ++ s.fs.dirs, s.fs.files⟩ bd).length = 0 then
            prints "Warning: No *_cpp.sk files were found to copy."
          else
            prints ("Successfully copied " ++
              toString (cppSkMatches
                ⟨ancestors out ++ s.fs.dirs, s.fs.files⟩ bd).length ++
              " files."))
        ⟨⟨ancestors out ++ s.fs.dirs, s.fs.files⟩,
         ((s.trace ++ [.print ("Copying files to " ++ pathStr out)]) ++
           [.mkdirParents out]) ++ [.globSearch bd "**/*_cpp.sk"]⟩ := rfl

/-- No directory created by mkdir(parents=True) on the Java output
directory can itself match the Java glob: an ancestor of the output
directory is too short to be a direct child of the deeper generated-files
directory. -/
theorem ancestors_no_java_match (ws : Path) :
    (ancestors (javaOutputDir ws)).filter
      (fun f => f.dropLast == javaGeneratedDir ws && skName (lastName f)) = [] := by
  rw [List.filter_eq_nil_iff]
  intro p hp hpred
  simp only [Bool.and_eq_true] at hpred
  obtain ⟨h1, -⟩ := hpred
  have hdrop : p.dropLast = javaGeneratedDir ws := by simpa using h1
  simp only [ancestors, List.mem_map, List.mem_range] at hp
  obtain ⟨i, hi, hpi⟩ := hp
  have hle : p.length ≤ (javaOutputDir ws).length := by
    rw [← hpi]
    simp only [List.length_take]
    omega
  have hlen2 := congrArg List.length hdrop
  rw [List.length_dropLast] at hlen2
  have hod : (javaOutputDir ws).length = ws.length + 2 := by
    simp only [javaOutputDir, List.length_append, List.length_cons,
      List.length_nil]
  have hgd : (javaGeneratedDir ws).length = ws.length + 3 := by
    simp only [javaGeneratedDir, javaTempDir, List.length_append,
      List.length_cons, List.length_nil]
  omega

/-- No directory created by mkdir(parents=True) on the C++ output
directory can itself match the recursive C++ glob: an ancestor of the
output directory is too short to lie strictly below the build
directory. -/
theorem ancestors_no_cpp_match (ws : Path) :
    (ancestors (cppOutputDir ws)).filter
      (fun f => (cppBuildDir ws).isPrefixOf f &&
        decide ((cppBuildDir ws).length < f.length) &&
        cppSkName (lastName f)) = [] := by
  rw [List.filter_eq_nil_iff]
  intro p hp hpred
  simp only [Bool.and_eq_true] at hpred
  obtain ⟨⟨-, h2⟩, -⟩ := hpred
  have hlt : (cppBuildDir ws).length < p.length := of_decide_eq_true h2
  simp only [ancestors, List.mem_map, List.mem_range] at hp
  obtain ⟨i, hi, hpi⟩ := hp
  have hle : p.length ≤ (cppOutputDir ws).length := by
    rw [← hpi]
    simp only [List.length_take]
    omega
  have hbd : (cppBuildDir ws).length = ws.length + 2 := by
    simp only [cppBuildDir, cppTempDir, List.length_append, List.length_cons,
      List.length_nil]
  have hod : (cppOutputDir ws).length = ws.length + 2 := by
    simp only [cppOutputDir, List.length_append, List.length_cons,
      List.length_nil]
  omega

/-- C7: a harvest that matches zero files is not fatal: the step completes
normally (so the process goes on to exit 0) and the only report is a line
starting with Warning, for either pipeline. -/
theorem zero_match_warning_nonfatal :
    (∀ (ws : Path) (s : St),
      s.fs.pathExists (javaGeneratedDir ws) = true →
      javaSkMatches s.fs (javaGeneratedDir ws) = [] →
      copyGeneratedJavaFiles (javaGeneratedDir ws) (javaOutputDir ws) s =
        Res.ok () ⟨⟨ancestors (javaOutputDir ws) ++ s.fs.dirs, s.fs.files⟩,
          s.trace ++ [.existsCheck (javaGeneratedDir ws),
            .print ("Copying files from " ++ pathStr (javaGeneratedDir ws) ++
              " to " ++ pathStr (javaOutputDir ws)),
            .mkdirParents (javaOutputDir ws),
            .globSearch (javaGeneratedDir ws) "*.sk",
            .print "Warning: No .sk files were found to copy."]⟩) ∧
    (∀ (ws : Path) (s : St),
      cppSkMatches s.fs (cppBuildDir ws) = [] →
      copyCppFiles (cppBuildDir ws) (cppOutputDir ws) s =
        Res.ok () ⟨⟨ancestors (cppOutputDir ws) ++ s.fs.dirs, s.fs.files⟩,
          s.trace ++ [.print ("Copying files to " ++ pathStr (cppOutputDir ws)),
            .mkdirParents (cppOutputDir ws),
            .globSearch (cppBuildDir ws) "**/*_cpp.sk",
            .print "Warning: No *_cpp.sk files were found to copy."]⟩) := by
  constructor
  · intro ws s hex hm
    have hm2 : javaSkMatches
        ⟨ancestors (javaOutputDir ws) ++ s.fs.dirs, s.fs.files⟩
        (javaGeneratedDir ws) = [] := by
      simp only [javaSkMatches, FS.entries, List.filter_append,
        List.append_eq_nil] at hm ⊢
      exact ⟨hm.1, ancestors_no_java_match ws, hm.2⟩
    rw [copyGenJava_exists_eq (javaGeneratedDir ws) (javaOutputDir ws) s hex,
      hm2]
    simp [M.bind, copyLoop, prints, emitA, pure_apply]
  · intro ws s hm
    have hm2 : cppSkMatches
        ⟨ancestors (cppOutputDir ws) ++ s.fs.dirs, s.fs.files⟩
        (cppBuildDir ws) = [] := by
      simp only [cppSkMatches, FS.entries, List.filter_append,
        List.append_eq_nil] at hm ⊢
      exact ⟨hm.1, ancestors_no_cpp_match ws, hm.2⟩
    rw [copyCpp_eq (cppBuildDir ws) (cppOutputDir ws) s, hm2]
    simp [M.bind, copyLoop, prints, emitA, pure_apply]

/-- C7 witness: a concrete Java harvest whose generated-files directory
exists but holds no matching file completes normally with the warning. -/
theorem zero_match_warning_nonfatal_witness :
    ((⟨⟨[javaGeneratedDir ["w"]], []⟩, []⟩ : St).fs.pathExists
        (javaGeneratedDir ["w"]) = true) ∧
    (javaSkMatches (⟨[javaGeneratedDir ["w"]], []⟩ : FS)
        (javaGeneratedDir ["w"]) = []) ∧
    copyGeneratedJavaFiles (javaGeneratedDir ["w"]) (javaOutputDir ["w"])
        ⟨⟨[javaGeneratedDir ["w"]], []⟩, []⟩ =
      Res.ok () ⟨⟨ancestors (javaOutputDir ["w"]) ++ [javaGeneratedDir ["w"]], []⟩,
        [.existsCheck (javaGeneratedDir ["w"]),
         .print ("Copying files from " ++ pathStr (javaGeneratedDir ["w"]) ++
           " to " ++ pathStr (javaOutputDir ["w"])),
         .mkdirParents (javaOutputDir ["w"]),
         .globSearch (javaGeneratedDir ["w"]) "*.sk",
         .print "Warning: No .sk files were found to copy."]⟩ :=
  ⟨by decide, by decide,
   zero_match_warning_nonfatal.1 ["w"] ⟨⟨[javaGeneratedDir ["w"]], []⟩, []⟩
     (by decide) (by decide)⟩

theorem keepsFile_copyGeneratedJavaFiles (p gen out : Path) :
    KeepsFile p (copyGeneratedJavaFiles gen out) := by
  intro s hs
  by_cases hex : s.fs.pathExists gen = true
  · rw [copyGenJava_exists_eq gen out s hex]
    exact keepsFile_bind (keepsFile_copyLoop p out _)
      (fun a => keepsFile_ite (keepsFile_prints _ _) (keepsFile_prints _ _))
      _ hs
  · rw [copyGenJava_missing_eq gen out s (by simpa using hex)]
    exact hs

theorem keepsFile_copyCppFiles (p bd out : Path) :
    KeepsFile p (copyCppFiles bd out) := by
  intro s hs
  rw [copyCpp_eq bd out s]
  exact keepsFile_bind (keepsFile_copyLoop p out _)
    (fun a => keepsFile_ite (keepsFile_prints _ _) (keepsFile_prints _ _))
    _ hs

/-- Two sibling subtrees rooted at distinct names below a common
directory are disjoint: a path lying in the first branch never has the
second branch as a prefix. -/
theorem not_prefixOf_other_branch (ws : List String) (a b : String)
    (hab : a ≠ b) :
    ∀ (t q r : List String), (ws ++ a :: t).isPrefixOf q = true →
      (ws ++ b :: r).isPrefixOf q = false := by
  induction ws with
  | nil =>
    intro t q r hp
    cases q with
    | nil => simp [List.isPrefixOf] at hp
    | cons x q2 =>
      simp only [List.nil_append, List.isPrefixOf, Bool.and_eq_true] at hp ⊢
      have hax : a = x := by simpa using hp.1
      have hbx : (b == x) = false := by
        apply beq_eq_false_iff_ne.mpr
        rw [← hax]
        exact fun hEq => hab hEq.symm
      simp [List.isPrefixOf, hbx]
  | cons c ws2 ih =>
    intro t q r hp
    cases q with
    | nil => simp [List.isPrefixOf] at hp
    | cons x q2 =>
      simp only [List.cons_append, List.isPrefixOf, Bool.and_eq_true,
        List.append_eq] at hp
      simp only [List.cons_append, List.isPrefixOf, List.append_eq]
      rw [ih t q2 r hp.2]
      simp

/-- C8: the per-pipeline output directory is append-only across runs:
for either pipeline, provided the external commands themselves do not
delete the artifact, a file below the pipeline output directory that
exists before a run is still present afterwards whatever the outcome
(the script itself only ever removes the disjoint temporary clone
directory, and the harvest only adds files); moreover the harvest step
creates the output directory with its parents (every nonempty path is
among the directories it creates), never clobbering existing entries. -/
theorem output_dir_append_only :
    (∀ (env : Env) (ws : Path) (fs : FS) (f : Path),
      (∀ (cmd : List String) (cwd : Option Path) (sh : Bool) (g : FS),
        f ∈ g.files → f ∈ (env.run cmd cwd sh g).fs.files) →
      (javaOutputDir ws).isPrefixOf f = true → f ∈ fs.files →
      f ∈ ((generate_java_files env ws) ⟨fs, []⟩).state.fs.files) ∧
    (∀ (env : Env) (ws : Path) (fs : FS) (f : Path),
      (∀ (cmd : List String) (cwd : Option Path) (sh : Bool) (g : FS),
        f ∈ g.files → f ∈ (env.run cmd cwd sh g).fs.files) →
      (cppOutputDir ws).isPrefixOf f = true → f ∈ fs.files →
      f ∈ ((generate_cpp_files env ws) ⟨fs, []⟩).state.fs.files) ∧
    (∀ (gen out : Path) (s : St), s.fs.pathExists gen = true →
      ((copyGeneratedJavaFiles gen out) s).state.fs.dirs =
        ancestors out ++ s.fs.dirs) ∧
    (∀ (bd out : Path) (s : St),
      ((copyCppFiles bd out) s).state.fs.dirs = ancestors out ++ s.fs.dirs) ∧
    (∀ p : Path, p ≠ [] → p ∈ ancestors p) := by
  refine ⟨?_, ?_, ?_, ?_, ?_⟩
  · intro env ws fs f hrun hpre hmem
    have htemp : (javaTempDir ws).isPrefixOf f = false :=
      not_prefixOf_other_branch ws "serialization_test_data"
        "tmp_datasketches_java" (by decide) ["java_generated_files"] f [] hpre
    have hkeep : KeepsFile f (generate_java_files env ws) := by
      unfold generate_java_files
      refine keepsFile_bind (keepsFile_prints _ _) (fun a1 => ?_)
      refine keepsFile_bind (keepsFile_check _ _ _) (fun a2 => ?_)
      refine keepsFile_bind (keepsFile_check _ _ _) (fun a3 => ?_)
      refine keepsFile_bind (keepsFile_check _ _ _) (fun a4 => ?_)
      refine keepsFile_bind (keepsFile_setupTempDir _ _ htemp) (fun a5 => ?_)
      refine keepsFile_bind
        (keepsFile_run_command _ _ _ _ _ (fun g => hrun _ _ _ g)) (fun a6 => ?_)
      refine keepsFile_bind
        (keepsFile_run_command _ _ _ _ _ (fun g => hrun _ _ _ g)) (fun a7 => ?_)
      exact keepsFile_copyGeneratedJavaFiles _ _ _
    exact hkeep ⟨fs, []⟩ hmem
  · intro env ws fs f hrun hpre hmem
    have htemp : (cppTempDir ws).isPrefixOf f = false :=
      not_prefixOf_other_branch ws "serialization_test_data"
        "tmp_datasketches_cpp" (by decide) ["cpp_generated_files"] f [] hpre
    have hkeep : KeepsFile f (generate_cpp_files env ws) := by
      unfold generate_cpp_files
      refine keepsFile_bind (keepsFile_prints _ _) (fun a1 => ?_)
      refine keepsFile_bind (keepsFile_check _ _ _) (fun a2 => ?_)
      refine keepsFile_bind (keepsFile_check _ _ _) (fun a3 => ?_)
      refine keepsFile_bind (keepsFile_check _ _ _) (fun a4 => ?_)
      refine keepsFile_bind (keepsFile_setupTempDir _ _ htemp) (fun a5 => ?_)
      refine keepsFile_bind
        (keepsFile_run_command _ _ _ _ _ (fun g => hrun _ _ _ g)) (fun a6 => ?_)
      refine keepsFile_bind (keepsFile_mkdirOk _ _) (fun a7 => ?_)
      refine keepsFile_bind
        (keepsFile_run_command _ _ _ _ _ (fun g => hrun _ _ _ g)) (fun a8 => ?_)
      refine keepsFile_bind
        (keepsFile_run_command _ _ _ _ _ (fun g => hrun _ _ _ g)) (fun a9 => ?_)
      refine keepsFile_bind
        (keepsFile_run_command _ _ _ _ _ (fun g => hrun _ _ _ g)) (fun a10 => ?_)
      exact keepsFile_copyCppFiles _ _ _
    exact hkeep ⟨fs, []⟩ hmem
  · intro gen out s hex
    rw [copyGenJava_exists_eq gen out s hex]
    exact bind_state_dirs_eq _ (copyLoop_dirs out _ _)
      (fun a s1 => by split <;> rfl)
  · intro bd out s
    rw [copyCpp_eq bd out s]
    exact bind_state_dirs_eq _ (copyLoop_dirs out _ _)
      (fun a s1 => by split <;> rfl)
  · intro p hne
    have hlen : 0 < p.length := List.length_pos.mpr hne
    have htake : p.take ((p.length - 1) + 1) = p := by
      have hEq : (p.length - 1) + 1 = p.length := by omega
      rw [hEq, List.take_length]
    refine List.mem_map.mpr ⟨p.length - 1, ?_, htake⟩
    simp only [List.mem_range]
    omega

/-- C8 witness: with an external environment that leaves the filesystem
alone, an artifact from a prior run below the Java output directory is
still there after a full Java pipeline run. -/
theorem output_dir_append_only_witness :
    ((javaOutputDir ["w"]).isPrefixOf
      ["w", "serialization_test_data", "java_generated_files", "old.sk"] = true) ∧
    (["w", "serialization_test_data", "java_generated_files", "old.sk"] : Path) ∈
      (FS.mk []
        [["w", "serialization_test_data", "java_generated_files", "old.sk"]]).files ∧
    (["w", "serialization_test_data", "java_generated_files", "old.sk"] : Path) ∈
      ((generate_java_files envAllOk ["w"])
        ⟨FS.mk []
          [["w", "serialization_test_data", "java_generated_files", "old.sk"]],
         []⟩).state.fs.files :=
  ⟨by decide, by decide,
   output_dir_append_only.1 envAllOk ["w"]
     (FS.mk [] [["w", "serialization_test_data", "java_generated_files", "old.sk"]])
     ["w", "serialization_test_data", "java_generated_files", "old.sk"]
     (fun cmd cwd sh g h => h) (by decide) (by decide)⟩

/-! Frame reasoning: fragments whose every recorded effect satisfies a
predicate, used to show the C++ pipeline never touches the Java
directories and conversely. -/

theorem appendsOnly_bind {P : Action → Prop} {m : M α} {k : α → M β}
    (hm : AppendsOnly P m) (hk : ∀ a, AppendsOnly P (k a)) :
    AppendsOnly P (m >>= k) := by
  intro s
  obtain ⟨δ1, h1, hp1⟩ := hm s
  show ∃ δ, (M.bind m k s).state.trace = s.trace ++ δ ∧ ∀ a ∈ δ, P a
  cases hcase : m s with
  | ok a s1 =>
    rw [hcase] at h1
    simp only [Res.state] at h1
    obtain ⟨δ2, h2, hp2⟩ := hk a s1
    refine ⟨δ1 ++ δ2, ?_, ?_⟩
    · simp only [M.bind, hcase]
      rw [h2, h1, List.append_assoc]
    · intro a2 ha
      rcases List.mem_append.mp ha with h | h
      · exact hp1 a2 h
      · exact hp2 a2 h
  | exit c s1 =>
    rw [hcase] at h1
    simp only [Res.state] at h1
    refine ⟨δ1, ?_, hp1⟩
    simp only [M.bind, hcase]
    exact h1
  | crash e s1 =>
    rw [hcase] at h1
    simp only [Res.state] at h1
    refine ⟨δ1, ?_, hp1⟩
    simp only [M.bind, hcase]
    exact h1

theorem appendsOnly_pure {P : Action → Prop} (a : α) :
    AppendsOnly P (pure a : M α) :=
  fun s => ⟨[], by simp [Res.state], by simp⟩

theorem appendsOnly_ite {P : Action → Prop} {c : Prop} [Decidable c]
    {m1 m2 : M α} (h1 : AppendsOnly P m1) (h2 : AppendsOnly P m2) :
    AppendsOnly P (if c then m1 else m2) := by
  by_cases hc : c
  · simpa [hc] using h1
  · simpa [hc] using h2

theorem appendsOnly_emitA {P : Action → Prop} (a : Action) (h : P a) :
    AppendsOnly P (emitA a) :=
  fun s => ⟨[a], rfl, by simpa⟩

theorem appendsOnly_getFS {P : Action → Prop} : AppendsOnly P getFS :=
  fun s => ⟨[], by simp [Res.state, getFS], by simp⟩

theorem appendsOnly_runExternal {P : Action → Prop} (env : Env)
    (cmd : List String) (cwd : Option Path) (sh : Bool) :
    AppendsOnly P (runExternal env cmd cwd sh) :=
  fun s => ⟨[], by simp [Res.state, runExternal], by simp⟩

/-- A printed line touches no path. -/
theorem untouched_print (tgts : List Path) (msg : String) :
    Untouched tgts (.print msg) :=
  fun _ _ => rfl

theorem appendsOnly_prints (tgts : List Path) (msg : String) :
    AppendsOnly (Untouched tgts) (prints msg) :=
  appendsOnly_emitA _ (untouched_print _ _)

theorem appendsOnly_check (tgts : List Path) (env : Env) (c : String) :
    AppendsOnly (Untouched tgts) (check_command_installed env c) := by
  intro s
  by_cases h : env.which c = true
  · refine ⟨[.whichCheck c], by rw [check_command_installed_ok env c s h]; rfl, ?_⟩
    intro a ha t ht
    simp only [List.mem_singleton] at ha
    subst ha
    rfl
  · refine ⟨[.whichCheck c, .print (missingMsg c)],
      by rw [check_command_installed_missing env c s (by simpa using h)]; rfl, ?_⟩
    intro a ha t ht
    simp only [List.mem_cons, List.mem_singleton] at ha
    rcases ha with rfl | rfl | h0
    · rfl
    · rfl
    · cases h0

theorem appendsOnly_run_command (tgts : List Path) (env : Env)
    (cmd : List String) (cwd : Option Path) (sh : Bool)
    (hcmd : ∀ t ∈ tgts, Action.touches (.runCmd cmd cwd sh) t = false) :
    AppendsOnly (Untouched tgts) (run_command env cmd cwd sh) := by
  intro s
  by_cases hc : (env.run cmd cwd sh s.fs).code = 0
  · refine ⟨[.print ("Running: " ++ String.intercalate " " cmd),
      .runCmd cmd cwd sh], by rw [run_command_ok env cmd cwd sh s hc]; rfl, ?_⟩
    intro a ha t ht
    simp only [List.mem_cons, List.mem_singleton] at ha
    rcases ha with rfl | rfl | h0
    · rfl
    · exact hcmd t ht
    · cases h0
  · refine ⟨[.print ("Running: " ++ String.intercalate " " cmd),
      .runCmd cmd cwd sh,
      .print ("Error running command: " ++
        calledProcessErrorMsg cmd (env.run cmd cwd sh s.fs).code),
      .print "--- OUTPUT ---", .print "None", .print "--- END OUTPUT ---"],
      by rw [run_command_fail env cmd cwd sh s hc]; rfl, ?_⟩
    intro a ha t ht
    simp only [List.mem_cons, List.mem_singleton] at ha
    rcases ha with rfl | rfl | rfl | rfl | rfl | rfl | h0
    · rfl
    · exact hcmd t ht
    · rfl
    · rfl
    · rfl
    · rfl
    · cases h0

theorem appendsOnly_setupTempDir (tgts : List Path) (temp : Path)
    (h1 : ∀ t ∈ tgts, t.isPrefixOf temp = false)
    (h2 : ∀ t ∈ tgts, temp.isPrefixOf t = false) :
    AppendsOnly (Untouched tgts) (setupTempDir temp) := by
  intro s
  by_cases hex : s.fs.pathExists temp = true
  · refine ⟨[.existsCheck temp,
      .print ("Removing existing temporary directory: " ++ pathStr temp),
      .rmtree temp, .mkdir temp],
      by rw [setupTempDir_exists_true temp s hex]; rfl, ?_⟩
    intro a ha t ht
    simp only [List.mem_cons, List.mem_singleton] at ha
    rcases ha with rfl | rfl | rfl | rfl | h0
    · simpa [Action.touches] using h1 t ht
    · rfl
    · simp [Action.touches, h1 t ht, h2 t ht]
    · simpa [Action.touches] using h1 t ht
    · cases h0
  · refine ⟨[.existsCheck temp, .mkdir temp],
      by rw [setupTempDir_exists_false temp s (by simpa using hex)]; rfl, ?_⟩
    intro a ha t ht
    simp only [List.mem_cons, List.mem_singleton] at ha
    rcases ha with rfl | rfl | h0
    · simpa [Action.touches] using h1 t ht
    · simpa [Action.touches] using h1 t ht
    · cases h0

theorem appendsOnly_mkdirOk (tgts : List Path) (p : Path)
    (h : ∀ t ∈ tgts, t.isPrefixOf p = false) :
    AppendsOnly (Untouched tgts) (mkdirOk p) := by
  intro s
  simp only [mkdirOk]
  split
  · refine ⟨[.mkdir p], rfl, ?_⟩
    intro a ha t ht
    simp only [List.mem_singleton] at ha
    subst ha
    simpa [Action.touches] using h t ht
  · refine ⟨[.mkdir p], rfl, ?_⟩
    intro a ha t ht
    simp only [List.mem_singleton] at ha
    subst ha
    simpa [Action.touches] using h t ht

theorem appendsOnly_copyLoop (tgts : List Path) (out : Path) :
    ∀ l : List Path,
      (∀ t ∈ tgts, ∀ f ∈ l,
        Action.touches (.copy2 f (out ++ [lastName f])) t = false) →
      AppendsOnly (Untouched tgts) (copyLoop out l) := by
  intro l
  induction l with
  | nil =>
    intro h
    exact appendsOnly_pure ()
  | cons f rest ih =>
    intro h
    show AppendsOnly _ (copyLoop out (f :: rest))
    unfold copyLoop
    refine appendsOnly_bind ?_ (fun x => appendsOnly_bind
      (appendsOnly_prints _ _)
      (fun y => ih (fun t ht g hg => h t ht g (List.mem_cons_of_mem _ hg))))
    intro s
    by_cases hc : f ∈ s.fs.dirs
    · refine ⟨[], ?_, by simp⟩
      simp [copy2M, hc, Res.state]
    · refine ⟨[.copy2 f (out ++ [lastName f])], ?_, ?_⟩
      · simp [copy2M, hc, Res.state, lastName]
      · intro a ha t ht
        simp only [List.mem_singleton] at ha
        subst ha
        exact h t ht f (List.mem_cons_self _ _)

/-- Rendering distributes over path concatenation. -/
theorem pathStr_cons_append (c : String) (ws2 l : Path) (h2 : l ≠ []) :
    pathStr ((c :: ws2) ++ l) = pathStr (c :: ws2) ++ "/" ++ pathStr l := by
  induction ws2 generalizing c with
  | nil =>
    cases l with
    | nil => exact absurd rfl h2
    | cons d l2 => simp [pathStr]
  | cons e ws3 ih =>
    have ihh := ih e
    simp only [List.cons_append] at ihh ⊢
    simp only [pathStr]
    rw [ihh]
    simp [String.append_assoc]

/-- The rendering of a path under any workspace differs from any string
that does not end in the rendered tail. -/
theorem pathStr_tail_ne (ws tl : Path) (u : String) (htl : tl ≠ [])
    (h1 : ¬ ("/" ++ pathStr tl).data <:+ u.data) (h2 : pathStr tl ≠ u) :
    pathStr (ws ++ tl) ≠ u := by
  cases ws with
  | nil => simpa using h2
  | cons c ws2 =>
    rw [pathStr_cons_append c ws2 tl htl]
    intro hEq
    apply h1
    rw [← hEq, String.append_assoc, String.data_append]
    exact ⟨(pathStr (c :: ws2)).data, rfl⟩

/-- Renderings of two different tails under the same workspace differ. -/
theorem pathStr_append_ne_append (ws tl1 tl2 : Path)
    (h1 : tl1 ≠ []) (h2 : tl2 ≠ []) (hne : pathStr tl1 ≠ pathStr tl2) :
    pathStr (ws ++ tl1) ≠ pathStr (ws ++ tl2) := by
  cases ws with
  | nil => simpa using hne
  | cons c ws2 =>
    rw [pathStr_cons_append c ws2 tl1 h1, pathStr_cons_append c ws2 tl2 h2]
    intro hEq
    have hd := congrArg String.data hEq
    simp only [String.data_append] at hd
    have hT : (pathStr tl1).data = (pathStr tl2).data :=
      List.append_cancel_left hd
    apply hne
    ext1
    exact hT

/-- Transitivity of the boolean prefix test. -/
theorem isPrefixOf_trans {a b c : Path} (h1 : a.isPrefixOf b = true)
    (h2 : b.isPrefixOf c = true) : a.isPrefixOf c = true :=
  List.isPrefixOf_iff_prefix.mpr
    (( List.isPrefixOf_iff_prefix.mp h1).trans ( List.isPrefixOf_iff_prefix.mp h2))

/-- A path is a prefix of any of its extensions. -/
theorem isPrefixOf_append (p l : Path) : p.isPrefixOf (p ++ l) = true :=
  List.isPrefixOf_iff_prefix.mpr (List.prefix_append p l)

/-- Every C++ harvest match lies below the build directory. -/
theorem cppSkMatches_isPrefixOf (fs : FS) (bd f : Path)
    (h : f ∈ cppSkMatches fs bd) : bd.isPrefixOf f = true := by
  simp only [cppSkMatches, List.mem_filter, Bool.and_eq_true] at h
  exact h.2.1.1

/-- Every Java harvest match is a direct child of the searched directory. -/
theorem javaSkMatches_dropLast (fs : FS) (dir f : Path)
    (h : f ∈ javaSkMatches fs dir) : f.dropLast = dir := by
  simp only [javaSkMatches, List.mem_filter, Bool.and_eq_true, beq_iff_eq] at h
  exact h.2.1

/-- A command none of whose arguments equals the rendered target does not
name the target. -/
theorem any_beq_pathStr_false (cmd : List String) (t : Path)
    (h : ∀ u ∈ cmd, pathStr t ≠ u) :
    (cmd.any (fun arg => arg == pathStr t)) = false := by
  rw [List.any_eq_false]
  intro u hu hT
  exact h u hu (eq_of_beq hT).symm

theorem appendsOnly_copyCppFiles (tgts : List Path) (bd out : Path)
    (hout : ∀ t ∈ tgts, t.isPrefixOf out = false)
    (houtc : ∀ t ∈ tgts, ∀ n : String, t.isPrefixOf (out ++ [n]) = false)
    (hbd : ∀ t ∈ tgts, ∀ f : Path, bd.isPrefixOf f = true →
      t.isPrefixOf f = false) :
    AppendsOnly (Untouched tgts) (copyCppFiles bd out) := by
  intro s
  have hA : AppendsOnly (Untouched tgts)
      ((copyLoop out (cppSkMatches
          ⟨ancestors out ++ s.fs.dirs, s.fs.files⟩ bd)) >>=
        (fun _ => if (cppSkMatches
              ⟨ancestors out ++ s.fs.dirs, s.fs.files⟩ bd).length = 0 then
            prints "Warning: No *_cpp.sk files were found to copy."
          else
            prints ("Successfully copied " ++
              toString (cppSkMatches
              ⟨ancestors out ++ s.fs.dirs, s.fs.files⟩ bd).length ++ " files."))) := by
    refine appendsOnly_bind
      (appendsOnly_copyLoop tgts out _ (fun t ht f hf => ?_))
      (fun a => appendsOnly_ite (appendsOnly_prints _ _) (appendsOnly_prints _ _))
    simp [Action.touches, hbd t ht f (cppSkMatches_isPrefixOf _ _ _ hf),
      houtc t ht (lastName f)]
  obtain ⟨δ1, h1, hp1⟩ := hA
    ⟨⟨ancestors out ++ s.fs.dirs, s.fs.files⟩,
     ((s.trace ++ [.print ("Copying files to " ++ pathStr out)]) ++
       [.mkdirParents out]) ++ [.globSearch bd "**/*_cpp.sk"]⟩
  have h1b : ((M.bind (copyLoop out (cppSkMatches
          ⟨ancestors out ++ s.fs.dirs, s.fs.files⟩ bd))
      (fun _ => if (cppSkMatches
              ⟨ancestors out ++ s.fs.dirs, s.fs.files⟩ bd).length = 0 then
          prints "Warning: No *_cpp.sk files were found to copy."
        else
          prints ("Successfully copied " ++
            toString (cppSkMatches
              ⟨ancestors out ++ s.fs.dirs, s.fs.files⟩ bd).length ++ " files."))
      ⟨⟨ancestors out ++ s.fs.dirs, s.fs.files⟩,
       ((s.trace ++ [.print ("Copying files to " ++ pathStr out)]) ++
         [.mkdirParents out]) ++ [.globSearch bd "**/*_cpp.sk"]⟩).state.trace) =
      (((s.trace ++ [.print ("Copying files to " ++ pathStr out)]) ++
        [.mkdirParents out]) ++ [.globSearch bd "**/*_cpp.sk"]) ++ δ1 := h1
  refine ⟨[.print ("Copying files to " ++ pathStr out),
    .mkdirParents out, .globSearch bd "**/*_cpp.sk"] ++ δ1, ?_, ?_⟩
  · rw [copyCpp_eq bd out s, h1b]
    simp [List.append_assoc]
  · intro a ha t ht
    rcases List.mem_append.mp ha with h | h
    · simp only [List.mem_cons, List.mem_singleton] at h
      rcases h with rfl | rfl | rfl | h0
      · rfl
      · simpa [Action.touches] using hout t ht
      · simpa [Action.touches] using hbd t ht bd (isPrefixOf_self bd)
      · cases h0
    · exact hp1 a h t ht

theorem appendsOnly_copyGeneratedJavaFiles (tgts : List Path) (gen out : Path)
    (hgen : ∀ t ∈ tgts, t.isPrefixOf gen = false)
    (hout : ∀ t ∈ tgts, t.isPrefixOf out = false)
    (houtc : ∀ t ∈ tgts, ∀ n : String, t.isPrefixOf (out ++ [n]) = false)
    (hsrc : ∀ t ∈ tgts, ∀ f : Path, f.dropLast = gen →
      t.isPrefixOf f = false) :
    AppendsOnly (Untouched tgts) (copyGeneratedJavaFiles gen out) := by
  intro s
  by_cases hex : s.fs.pathExists gen = true
  · have hA : AppendsOnly (Untouched tgts)
        ((copyLoop out (javaSkMatches
          ⟨ancestors out ++ s.fs.dirs, s.fs.files⟩ gen)) >>=
          (fun _ => if (javaSkMatches
              ⟨ancestors out ++ s.fs.dirs, s.fs.files⟩ gen).length = 0 then
              prints "Warning: No .sk files were found to copy."
            else
              prints ("Successfully copied " ++
                toString (javaSkMatches
              ⟨ancestors out ++ s.fs.dirs, s.fs.files⟩ gen).length ++ " files."))) := by
      refine appendsOnly_bind
        (appendsOnly_copyLoop tgts out _ (fun t ht f hf => ?_))
        (fun a => appendsOnly_ite (appendsOnly_prints _ _) (appendsOnly_prints _ _))
      simp [Action.touches, hsrc t ht f (javaSkMatches_dropLast _ _ _ hf),
        houtc t ht (lastName f)]
    obtain ⟨δ1, h1, hp1⟩ := hA
      ⟨⟨ancestors out ++ s.fs.dirs, s.fs.files⟩,
       ((s.trace ++ [.existsCheck gen,
           .print ("Copying files from " ++ pathStr gen ++ " to " ++
             pathStr out)]) ++ [.mkdirParents out]) ++ [.globSearch gen "*.sk"]⟩
    have h1b : ((M.bind (copyLoop out (javaSkMatches
          ⟨ancestors out ++ s.fs.dirs, s.fs.files⟩ gen))
        (fun _ => if (javaSkMatches
              ⟨ancestors out ++ s.fs.dirs, s.fs.files⟩ gen).length = 0 then
            prints "Warning: No .sk files were found to copy."
          else
            prints ("Successfully copied " ++
              toString (javaSkMatches
              ⟨ancestors out ++ s.fs.dirs, s.fs.files⟩ gen).length ++ " files."))
        ⟨⟨ancestors out ++ s.fs.dirs, s.fs.files⟩,
         ((s.trace ++ [.existsCheck gen,
             .print ("Copying files from " ++ pathStr gen ++ " to " ++
               pathStr out)]) ++ [.mkdirParents out]) ++
           [.globSearch gen "*.sk"]⟩).state.trace) =
        (((s.trace ++ [.existsCheck gen,
            .print ("Copying files from " ++ pathStr gen ++ " to " ++
              pathStr out)]) ++ [.mkdirParents out]) ++
          [.globSearch gen "*.sk"]) ++ δ1 := h1
    refine ⟨[.existsCheck gen,
      .print ("Copying files from " ++ pathStr gen ++ " to " ++ pathStr out),
      .mkdirParents out, .globSearch gen "*.sk"] ++ δ1, ?_, ?_⟩
    · rw [copyGenJava_exists_eq gen out s hex, h1b]
      simp [List.append_assoc]
    · intro a ha t ht
      rcases List.mem_append.mp ha with h | h
      · simp only [List.mem_cons, List.mem_singleton] at h
        rcases h with rfl | rfl | rfl | rfl | h0
        · simpa [Action.touches] using hgen t ht
        · rfl
        · simpa [Action.touches] using hout t ht
        · simpa [Action.touches] using hgen t ht
        · cases h0
      · exact hp1 a h t ht
  · refine ⟨[.existsCheck gen,
      .print ("Error: Expected generated files directory not found at " ++
        pathStr gen)],
      by rw [copyGenJava_missing_eq gen out s (by simpa using hex)]; rfl, ?_⟩
    intro a ha t ht
    simp only [List.mem_cons, List.mem_singleton] at ha
    rcases ha with rfl | rfl | h0
    · simpa [Action.touches] using hgen t ht
    · rfl
    · cases h0

/-- The C++ pipeline appends only effects that touch neither the Java
temporary directory nor the Java output directory. -/
theorem appendsOnly_generate_cpp_frame (env : Env) (ws : Path) :
    AppendsOnly (Untouched [javaTempDir ws, javaOutputDir ws])
      (generate_cpp_files env ws) := by
  have hC1 : ∀ q : Path, (cppTempDir ws).isPrefixOf q = true →
      (javaTempDir ws).isPrefixOf q = false := fun q hq =>
    not_prefixOf_other_branch ws "tmp_datasketches_cpp" "tmp_datasketches_java"
      (by decide) [] q [] hq
  have hC2 : ∀ q : Path, (cppTempDir ws).isPrefixOf q = true →
      (javaOutputDir ws).isPrefixOf q = false := fun q hq =>
    not_prefixOf_other_branch ws "tmp_datasketches_cpp" "serialization_test_data"
      (by decide) [] q ["java_generated_files"] hq
  have hO1 : ∀ q : Path, (cppOutputDir ws).isPrefixOf q = true →
      (javaTempDir ws).isPrefixOf q = false := fun q hq =>
    not_prefixOf_other_branch ws "serialization_test_data"
      "tmp_datasketches_java" (by decide) ["cpp_generated_files"] q [] hq
  have hO2 : ∀ q : Path, (cppOutputDir ws).isPrefixOf q = true →
      (javaOutputDir ws).isPrefixOf q = false := by
    intro q hq
    have hq2 : ((ws ++ ["serialization_test_data"]) ++
        "cpp_generated_files" :: []).isPrefixOf q = true := by
      rw [List.append_assoc]
      exact hq
    have hres := not_prefixOf_other_branch (ws ++ ["serialization_test_data"])
      "cpp_generated_files" "java_generated_files" (by decide) [] q [] hq2
    rw [List.append_assoc] at hres
    exact hres
  have hR1 : (cppTempDir ws).isPrefixOf (javaTempDir ws) = false :=
    not_prefixOf_other_branch ws "tmp_datasketches_java" "tmp_datasketches_cpp"
      (by decide) [] (javaTempDir ws) [] (isPrefixOf_self _)
  have hR2 : (cppTempDir ws).isPrefixOf (javaOutputDir ws) = false :=
    not_prefixOf_other_branch ws "serialization_test_data"
      "tmp_datasketches_cpp" (by decide) ["java_generated_files"]
      (javaOutputDir ws) [] (isPrefixOf_self _)
  have hBuild : (cppTempDir ws).isPrefixOf (cppBuildDir ws) = true :=
    isPrefixOf_append _ _
  have htmem : ∀ t ∈ [javaTempDir ws, javaOutputDir ws],
      t = javaTempDir ws ∨ t = javaOutputDir ws := by
    intro t ht
    simpa using ht
  have hcwd : ∀ t ∈ [javaTempDir ws, javaOutputDir ws],
      t.isPrefixOf (cppBuildDir ws) = false := by
    intro t ht
    rcases htmem t ht with rfl | rfl
    · exact hC1 _ hBuild
    · exact hC2 _ hBuild
  have hlitcmd : ∀ (cmdl : List String),
      (∀ u ∈ cmdl,
        (¬ ("/tmp_datasketches_java" : String).data <:+ u.data) ∧
        "tmp_datasketches_java" ≠ u ∧
        (¬ ("/serialization_test_data/java_generated_files" : String).data <:+
          u.data) ∧
        "serialization_test_data/java_generated_files" ≠ u) →
      ∀ t ∈ [javaTempDir ws, javaOutputDir ws],
        (cmdl.any (fun arg => arg == pathStr t)) = false := by
    intro cmdl hall t ht
    refine any_beq_pathStr_false _ _ ?_
    intro u hu
    obtain ⟨hu1, hu2, hu3, hu4⟩ := hall u hu
    rcases htmem t ht with rfl | rfl
    · exact pathStr_tail_ne ws ["tmp_datasketches_java"] _ (by decide)
        (by simpa using hu1) (by simpa using hu2)
    · exact pathStr_tail_ne ws
        ["serialization_test_data", "java_generated_files"] _ (by decide)
        (by simpa using hu3) (by simpa using hu4)
  unfold generate_cpp_files
  refine appendsOnly_bind (appendsOnly_prints _ _) (fun a1 => ?_)
  refine appendsOnly_bind (appendsOnly_check _ _ _) (fun a2 => ?_)
  refine appendsOnly_bind (appendsOnly_check _ _ _) (fun a3 => ?_)
  refine appendsOnly_bind (appendsOnly_check _ _ _) (fun a4 => ?_)
  refine appendsOnly_bind (appendsOnly_setupTempDir _ _ ?_ ?_) (fun a5 => ?_)
  · intro t ht
    rcases htmem t ht with rfl | rfl
    · exact hC1 _ (isPrefixOf_self _)
    · exact hC2 _ (isPrefixOf_self _)
  · intro t ht
    rcases htmem t ht with rfl | rfl
    · exact hR1
    · exact hR2
  refine appendsOnly_bind (appendsOnly_run_command _ _ _ _ _ ?_) (fun a6 => ?_)
  · intro t ht
    simp only [Action.touches, Bool.false_or]
    refine any_beq_pathStr_false _ _ ?_
    intro u hu
    simp only [cloneCmd, List.mem_cons, List.mem_singleton] at hu
    rcases htmem t ht with rfl | rfl
    · rcases hu with rfl | rfl | rfl | rfl | rfl | rfl | rfl | rfl | rfl | h0 <;>
        first
        | cases h0
        | exact pathStr_tail_ne ws ["tmp_datasketches_java"] _ (by decide)
            (by decide) (by decide)
        | exact pathStr_append_ne_append ws ["tmp_datasketches_java"]
            ["tmp_datasketches_cpp"] (by simp) (by simp) (by decide)
    · rcases hu with rfl | rfl | rfl | rfl | rfl | rfl | rfl | rfl | rfl | h0 <;>
        first
        | cases h0
        | exact pathStr_tail_ne ws
            ["serialization_test_data", "java_generated_files"] _ (by decide)
            (by decide) (by decide)
        | exact pathStr_append_ne_append ws
            ["serialization_test_data", "java_generated_files"]
            ["tmp_datasketches_cpp"] (by simp) (by simp) (by decide)
  refine appendsOnly_bind (appendsOnly_mkdirOk _ _ hcwd) (fun a7 => ?_)
  refine appendsOnly_bind (appendsOnly_run_command _ _ _ _ _ ?_) (fun a8 => ?_)
  · intro t ht
    simp only [Action.touches]
    rw [Bool.or_eq_false_iff]
    refine ⟨hcwd t ht, ?_⟩
    refine hlitcmd _ ?_ t ht
    intro u hu
    simp only [List.mem_cons, List.mem_singleton] at hu
    rcases hu with rfl | rfl | rfl | rfl | h0 <;>
      first
      | cases h0
      | exact ⟨by decide, by decide, by decide, by decide⟩
  refine appendsOnly_bind (appendsOnly_run_command _ _ _ _ _ ?_) (fun a9 => ?_)
  · intro t ht
    simp only [Action.touches]
    rw [Bool.or_eq_false_iff]
    refine ⟨hcwd t ht, ?_⟩
    refine hlitcmd _ ?_ t ht
    intro u hu
    simp only [List.mem_cons, List.mem_singleton] at hu
    rcases hu with rfl | rfl | rfl | rfl | rfl | h0 <;>
      first
      | cases h0
      | exact ⟨by decide, by decide, by decide, by decide⟩
  refine appendsOnly_bind (appendsOnly_run_command _ _ _ _ _ ?_) (fun a10 => ?_)
  · intro t ht
    simp only [Action.touches]
    rw [Bool.or_eq_false_iff]
    refine ⟨hcwd t ht, ?_⟩
    refine hlitcmd _ ?_ t ht
    intro u hu
    simp only [List.mem_cons, List.mem_singleton] at hu
    rcases hu with rfl | rfl | rfl | rfl | h0 <;>
      first
      | cases h0
      | exact ⟨by decide, by decide, by decide, by decide⟩
  refine appendsOnly_copyCppFiles _ _ _ ?_ ?_ ?_
  · intro t ht
    rcases htmem t ht with rfl | rfl
    · exact hO1 _ (isPrefixOf_self _)
    · exact hO2 _ (isPrefixOf_self _)
  · intro t ht n
    rcases htmem t ht with rfl | rfl
    · exact hO1 _ (isPrefixOf_append _ _)
    · exact hO2 _ (isPrefixOf_append _ _)
  · intro t ht f hf
    rcases htmem t ht with rfl | rfl
    · exact hC1 _ (isPrefixOf_trans hBuild hf)
    · exact hC2 _ (isPrefixOf_trans hBuild hf)

/-- The Java pipeline appends only effects that touch neither the C++
temporary directory nor the C++ output directory. -/
theorem appendsOnly_generate_java_frame (env : Env) (ws : Path) :
    AppendsOnly (Untouched [cppTempDir ws, cppOutputDir ws])
      (generate_java_files env ws) := by
  have hJ1 : ∀ q : Path, (javaTempDir ws).isPrefixOf q = true →
      (cppTempDir ws).isPrefixOf q = false := fun q hq =>
    not_prefixOf_other_branch ws "tmp_datasketches_java" "tmp_datasketches_cpp"
      (by decide) [] q [] hq
  have hJ2 : ∀ q : Path, (javaTempDir ws).isPrefixOf q = true →
      (cppOutputDir ws).isPrefixOf q = false := fun q hq =>
    not_prefixOf_other_branch ws "tmp_datasketches_java"
      "serialization_test_data" (by decide) [] q ["cpp_generated_files"] hq
  have hJO1 : ∀ q : Path, (javaOutputDir ws).isPrefixOf q = true →
      (cppTempDir ws).isPrefixOf q = false := fun q hq =>
    not_prefixOf_other_branch ws "serialization_test_data"
      "tmp_datasketches_cpp" (by decide) ["java_generated_files"] q [] hq
  have hJO2 : ∀ q : Path, (javaOutputDir ws).isPrefixOf q = true →
      (cppOutputDir ws).isPrefixOf q = false := by
    intro q hq
    have hq2 : ((ws ++ ["serialization_test_data"]) ++
        "java_generated_files" :: []).isPrefixOf q = true := by
      rw [List.append_assoc]
      exact hq
    have hres := not_prefixOf_other_branch (ws ++ ["serialization_test_data"])
      "java_generated_files" "cpp_generated_files" (by decide) [] q [] hq2
    rw [List.append_assoc] at hres
    exact hres
  have hR1 : (javaTempDir ws).isPrefixOf (cppTempDir ws) = false :=
    not_prefixOf_other_branch ws "tmp_datasketches_cpp" "tmp_datasketches_java"
      (by decide) [] (cppTempDir ws) [] (isPrefixOf_self _)
  have hR2 : (javaTempDir ws).isPrefixOf (cppOutputDir ws) = false :=
    not_prefixOf_other_branch ws "serialization_test_data"
      "tmp_datasketches_java" (by decide) ["cpp_generated_files"]
      (cppOutputDir ws) [] (isPrefixOf_self _)
  have hGen : (javaTempDir ws).isPrefixOf (javaGeneratedDir ws) = true :=
    isPrefixOf_append _ _
  have htmem : ∀ t ∈ [cppTempDir ws, cppOutputDir ws],
      t = cppTempDir ws ∨ t = cppOutputDir ws := by
    intro t ht
    simpa using ht
  have hcwdJ : ∀ t ∈ [cppTempDir ws, cppOutputDir ws],
      t.isPrefixOf (javaTempDir ws) = false := by
    intro t ht
    rcases htmem t ht with rfl | rfl
    · exact hJ1 _ (isPrefixOf_self _)
    · exact hJ2 _ (isPrefixOf_self _)
  have hdp : ∀ f : Path, f.dropLast <+: f := fun f => List.dropLast_prefix f
  unfold generate_java_files
  refine appendsOnly_bind (appendsOnly_prints _ _) (fun a1 => ?_)
  refine appendsOnly_bind (appendsOnly_check _ _ _) (fun a2 => ?_)
  refine appendsOnly_bind (appendsOnly_check _ _ _) (fun a3 => ?_)
  refine appendsOnly_bind (appendsOnly_check _ _ _) (fun a4 => ?_)
  refine appendsOnly_bind (appendsOnly_setupTempDir _ _ hcwdJ ?_) (fun a5 => ?_)
  · intro t ht
    rcases htmem t ht with rfl | rfl
    · exact hR1
    · exact hR2
  refine appendsOnly_bind (appendsOnly_run_command _ _ _ _ _ ?_) (fun a6 => ?_)
  · intro t ht
    simp only [Action.touches, Bool.false_or]
    refine any_beq_pathStr_false _ _ ?_
    intro u hu
    simp only [cloneCmd, List.mem_cons, List.mem_singleton] at hu
    rcases htmem t ht with rfl | rfl
    · rcases hu with rfl | rfl | rfl | rfl | rfl | rfl | rfl | rfl | rfl | h0 <;>
        first
        | cases h0
        | exact pathStr_tail_ne ws ["tmp_datasketches_cpp"] _ (by decide)
            (by decide) (by decide)
        | exact pathStr_append_ne_append ws ["tmp_datasketches_cpp"]
            ["tmp_datasketches_java"] (by simp) (by simp) (by decide)
    · rcases hu with rfl | rfl | rfl | rfl | rfl | rfl | rfl | rfl | rfl | h0 <;>
        first
        | cases h0
        | exact pathStr_tail_ne ws
            ["serialization_test_data", "cpp_generated_files"] _ (by decide)
            (by decide) (by decide)
        | exact pathStr_append_ne_append ws
            ["serialization_test_data", "cpp_generated_files"]
            ["tmp_datasketches_java"] (by simp) (by simp) (by decide)
  refine appendsOnly_bind (appendsOnly_run_command _ _ _ _ _ ?_) (fun a7 => ?_)
  · intro t ht
    simp only [Action.touches]
    rw [Bool.or_eq_false_iff]
    refine ⟨hcwdJ t ht, ?_⟩
    refine any_beq_pathStr_false _ _ ?_
    intro u hu
    simp only [List.mem_cons, List.mem_singleton] at hu
    rcases htmem t ht with rfl | rfl
    · rcases hu with rfl | rfl | rfl | rfl | h0 <;>
        first
        | cases h0
        | exact pathStr_tail_ne ws ["tmp_datasketches_cpp"] _ (by decide)
            (by decide) (by decide)
        | (unfold mvnCmdName
           split <;>
             exact pathStr_tail_ne ws ["tmp_datasketches_cpp"] _ (by decide)
               (by decide) (by decide))
    · rcases hu with rfl | rfl | rfl | rfl | h0 <;>
        first
        | cases h0
        | exact pathStr_tail_ne ws
            ["serialization_test_data", "cpp_generated_files"] _ (by decide)
            (by decide) (by decide)
        | (unfold mvnCmdName
           split <;>
             exact pathStr_tail_ne ws
               ["serialization_test_data", "cpp_generated_files"] _ (by decide)
               (by decide) (by decide))
  refine appendsOnly_copyGeneratedJavaFiles _ _ _ ?_ ?_ ?_ ?_
  · intro t ht
    rcases htmem t ht with rfl | rfl
    · exact hJ1 _ hGen
    · exact hJ2 _ hGen
  · intro t ht
    rcases htmem t ht with rfl | rfl
    · exact hJO1 _ (isPrefixOf_self _)
    · exact hJO2 _ (isPrefixOf_self _)
  · intro t ht n
    rcases htmem t ht with rfl | rfl
    · exact hJO1 _ (isPrefixOf_append _ _)
    · exact hJO2 _ (isPrefixOf_append _ _)
  · intro t ht f hdrop
    have hpref : (javaGeneratedDir ws).isPrefixOf f = true :=
      List.isPrefixOf_iff_prefix.mpr (hdrop ▸ hdp f)
    have hpref2 : (javaTempDir ws).isPrefixOf f = true :=
      isPrefixOf_trans hGen hpref
    rcases htmem t ht with rfl | rfl
    · exact hJ1 _ hpref2
    · exact hJ2 _ hpref2

/-- C9: invoking the program with only the cpp flag produces a trace in
which no recorded effect touches the Java temporary directory or the
Java output directory; symmetrically, the Java pipeline touches neither
C++ directory: each pipeline only ever touches its own temporary and
output directories. -/
theorem pipeline_frame_separation (env : Env) (ws : Path) (fs : FS) :
    (∀ a ∈ ((mainRun env ws false true false) ⟨fs, []⟩).state.trace,
      a.touches (javaTempDir ws) = false ∧
      a.touches (javaOutputDir ws) = false) ∧
    (∀ a ∈ ((generate_java_files env ws) ⟨fs, []⟩).state.trace,
      a.touches (cppTempDir ws) = false ∧
      a.touches (cppOutputDir ws) = false) := by
  constructor
  · obtain ⟨δ, h1, hp⟩ := appendsOnly_generate_cpp_frame env ws ⟨fs, []⟩
    intro a ha
    have h1b : ((mainRun env ws false true false) ⟨fs, []⟩).state.trace =
        [] ++ δ := h1
    rw [h1b] at ha
    simp only [List.nil_append] at ha
    have hU := hp a ha
    exact ⟨hU (javaTempDir ws) (by simp), hU (javaOutputDir ws) (by simp)⟩
  · obtain ⟨δ, h1, hp⟩ := appendsOnly_generate_java_frame env ws ⟨fs, []⟩
    intro a ha
    have h1b : ((generate_java_files env ws) ⟨fs, []⟩).state.trace =
        [] ++ δ := h1
    rw [h1b] at ha
    simp only [List.nil_append] at ha
    have hU := hp a ha
    exact ⟨hU (cppTempDir ws) (by simp), hU (cppOutputDir ws) (by simp)⟩

end Gensnaps
